import Mathlib

/-!
Shallow embedding of `vhdl_lang/src/analysis/semantic.rs` (semantic name
resolution of the VHDL analyzer) together with the interface types it
consumes (`NamedEntity`, `Region`, diagnostics) as described by the
specification.  Rust identifiers are kept where Lean allows; the Rust
parameter name `prefix` is rendered as `pfx` because `prefix` is not a
usable identifier here.
-/

namespace Vhdl

/-- A designator is the textual key used for lookup (identifier or operator
symbol); modelled as its text. -/
abbrev Designator := String

/-- A source position, modelled abstractly as an identifier of a source
range. -/
abbrev SrcPos := Nat

/-- A single-quote character, used when building diagnostic messages. -/
def squote : String := String.singleton (Char.ofNat 39)

/-- A diagnostic: primary message, source position and related-position
notes, as produced by `Diagnostic::error` and `add_related`. -/
structure Diagnostic where
  pos : SrcPos
  message : String
  related : List (SrcPos × String)
deriving Repr, DecidableEq

/-- `Diagnostic::error(pos, message)`. -/
def Diagnostic.error (pos : SrcPos) (message : String) : Diagnostic :=
  ⟨pos, message, []⟩

/-- `Diagnostic::add_related(pos, message)`. -/
def Diagnostic.add_related (d : Diagnostic) (pos : SrcPos) (message : String) : Diagnostic :=
  { d with related := d.related ++ [(pos, message)] }

/-- Modelled from the spec: `capitalize` from the `data` module (not under
`src/`), capitalizing a message for display. -/
def capitalize (s : String) : String := s.capitalize

mutual

/-- `NamedEntity`: one declaration.  Fields: designator, kind, optional
declaration position, and the `describe()` text (the description generator
is external to `src/`; modelled as a stored string). -/
inductive NamedEntity where
  | mk (designator : Designator) (kind : NamedEntityKind)
       (decl_pos : Option SrcPos) (describe : String)

/-- `NamedEntityKind`: the closed set of declaration kinds dispatched on by
`lookup_selected` / `lookup_type_selected`.  `Subtype`, `AccessType`,
`Object` and `ElementDeclaration` carry the entity their `subtype.base()`
yields; `IncompleteType` carries the current state of the weak forward
reference (`load().upgrade()`): `none` while unresolved, `some full` once
linked.  `Subprogram` and `Other` stand for the remaining kinds, all of
which fall into the `_` arms of the source. -/
inductive NamedEntityKind where
  | Library
  | UninstPackage
  | Object (base : NamedEntity)
  | ElementDeclaration (base : NamedEntity)
  | Package (region : List (Designator × NamedEntities))
  | PackageInstance (region : List (Designator × NamedEntities))
  | LocalPackageInstance (region : List (Designator × NamedEntities))
  | RecordType (region : List (Designator × NamedEntities))
  | ProtectedType (region : List (Designator × NamedEntities))
  | IncompleteType (full : Option NamedEntity)
  | Subtype (base : NamedEntity)
  | AccessType (base : NamedEntity)
  | OtherAlias
  | Subprogram
  | Other (tag : String)

/-- `NamedEntities`: the result of a lookup, a single entity or an
overloaded set. -/
inductive NamedEntities where
  | Single (ent : NamedEntity)
  | Overloaded (overloaded : OverloadedName)

/-- `OverloadedName`: a designator together with the overloaded entities it
denotes. -/
inductive OverloadedName where
  | mk (designator : Designator) (entities : List NamedEntity)

end

/-- The designator of a named entity. -/
def NamedEntity.designator : NamedEntity → Designator
  | .mk d _ _ _ => d

/-- The kind of a named entity. -/
def NamedEntity.kind : NamedEntity → NamedEntityKind
  | .mk _ k _ _ => k

/-- `decl_pos()`. -/
def NamedEntity.decl_pos : NamedEntity → Option SrcPos
  | .mk _ _ p _ => p

/-- `describe()`. -/
def NamedEntity.describe : NamedEntity → String
  | .mk _ _ _ s => s

/-- Modelled from the spec: `actual_kind()` (defined outside `src/`)
yields the kind the dispatch arms inspect; the spec lists no further
alias-chasing variant, so it is the entity's kind. -/
def NamedEntity.actual_kind (e : NamedEntity) : NamedEntityKind := e.kind

/-- `Designator::expect_identifier` on our textual designators. -/
def Designator.expect_identifier (d : Designator) : Designator := d

/-- The designator of an overloaded name. -/
def OverloadedName.designator : OverloadedName → Designator
  | .mk d _ => d

/-- The entities of an overloaded name. -/
def OverloadedName.entities : OverloadedName → List NamedEntity
  | .mk _ es => es

/-- `NamedEntities::new`. -/
def NamedEntities.new (ent : NamedEntity) : NamedEntities := .Single ent

/-- `into_non_overloaded()`: `Single` to success, `Overloaded` to a typed
failure carrying the whole set. -/
def NamedEntities.into_non_overloaded : NamedEntities → Except OverloadedName NamedEntity
  | .Single ent => .ok ent
  | .Overloaded o => .error o

/-- The member scope owned by package / record / protected-type entities:
a mapping from designator to `NamedEntities`. -/
abbrev MemberRegion := List (Designator × NamedEntities)

/-- Modelled from the spec: `Region::lookup_selected(designator)` (region
internals are outside `src/`) — lookup of a designator inside a named
entity's own member scope. -/
def MemberRegion.lookup_selected (r : MemberRegion) (d : Designator) : Option NamedEntities :=
  match r.find? (fun p => p.1 == d) with
  | some p => some p.2
  | none => none

/-- A reference slot: the mutable, clearable binding on a `WithRef` node;
`none` after `clear_reference()`, `some` after `set_reference()`. -/
abbrev Reference := Option NamedEntities

/-- `WithPos<T>`: an item together with its source position. -/
structure WithPos (T : Type) where
  item : T
  pos : SrcPos

/-- `WithRef<T>`: an item together with its reference slot. -/
structure WithRef (T : Type) where
  item : T
  reference : Reference

/-- The designator of a `WithRef<Designator>` node. -/
def WithRef.designator (d : WithRef Designator) : Designator := d.item

/-- `clear_reference()` on a `WithRef` node. -/
def WithRef.clear_reference (d : WithRef T) : WithRef T :=
  { d with reference := none }

/-- `set_reference(&visible)` on a `WithRef` node. -/
def WithRef.set_reference (d : WithRef T) (visible : NamedEntities) : WithRef T :=
  { d with reference := some visible }

/-- `clear_reference()` on a positioned `WithRef` node. -/
def WithPos.clear_reference (w : WithPos (WithRef T)) : WithPos (WithRef T) :=
  { w with item := w.item.clear_reference }

/-- `set_reference(&visible)` on a positioned `WithRef` node. -/
def WithPos.set_reference (w : WithPos (WithRef T)) (visible : NamedEntities) :
    WithPos (WithRef T) :=
  { w with item := w.item.set_reference visible }

/-- The designator of a positioned `WithRef<Designator>` node. -/
def WithPos.designator (w : WithPos (WithRef Designator)) : Designator :=
  w.item.designator

/-- `CircularDependencyError`, the fatal error. -/
inductive CircularDependencyError where
  | mk
deriving Repr, DecidableEq

/-- `AnalysisError`: a non-fatal diagnostic or a fatal error. -/
inductive AnalysisError where
  | NotFatal (diag : Diagnostic)
  | Fatal (err : CircularDependencyError)
deriving Repr, DecidableEq

/-- `AnalysisResult<T>`. -/
abbrev AnalysisResult (T : Type) := Except AnalysisError T

/-- `FatalResult<T>`: propagates only fatal errors. -/
abbrev FatalResult (T : Type) := Except CircularDependencyError T

/-- `AnalysisError::add_to(diagnostics)`: push a non-fatal diagnostic,
propagate a fatal error.  Returns the pushed diagnostics. -/
def AnalysisError.add_to : AnalysisError → FatalResult Unit × List Diagnostic
  | .NotFatal diag => (.ok (), [diag])
  | .Fatal err => (.error err, [])

/-- The lexical scope handed to the resolver; an external collaborator
offering `lookup_within(pos, designator)` (spec section 6). -/
structure Region where
  lookup_within : SrcPos → Designator → Except Diagnostic NamedEntities

/-- Opaque payload analyzed only by external collaborators. -/
abbrev Signature := Nat

/-- Opaque payload analyzed only by external collaborators. -/
abbrev SubtypeIndication := Nat

/-- Opaque payload analyzed only by the external Target Analyzer. -/
abbrev Target := Nat

/-- `AssignmentType`: Modelled from the spec: the syntactic
assignment-type context (signal vs variable) handed to the external Target
Analyzer; defined in `target.rs`, outside `src/`. -/
inductive AssignmentType where
  | Signal
  | Variable
deriving Repr, DecidableEq

/-- `AnalyzeContext`: the external collaborators consumed by this core
(spec section 6): library lookup, signature resolution, subtype-indication
analysis, and the Target Analyzer.  Each is Modelled from the spec at its
interface; the analyzers return their fatal-or-ok outcome, the updated
payload, and the diagnostics they pushed. -/
structure AnalyzeContext where
  lookup_in_library : Designator → SrcPos → Designator → AnalysisResult NamedEntity
  resolve_signature : Region → WithPos Signature →
    AnalysisResult Unit × WithPos Signature
  analyze_subtype_indication : Region → SubtypeIndication →
    FatalResult Unit × SubtypeIndication × List Diagnostic
  analyze_target : Region → WithPos Target → AssignmentType →
    FatalResult Unit × WithPos Target × List Diagnostic

/-- `invalid_selected_name_prefix` (the Rust name ends in the word
rendered here as `pfx`). -/
def invalid_selected_name_pfx (named_entity : NamedEntity) (pfx : SrcPos) : Diagnostic :=
  Diagnostic.error pfx
    (capitalize (named_entity.describe ++ " may not be the prefix of a selected name"))

/-- `no_declaration_within`. -/
def no_declaration_within (named_entity : NamedEntity)
    (suffix : WithPos (WithRef Designator)) : Diagnostic :=
  Diagnostic.error suffix.pos
    ("No declaration of " ++ squote ++ suffix.item.item ++ squote ++ " within "
      ++ named_entity.describe)

/-- `lookup_type_selected` (semantic.rs lines 55–96): lookup a selected
name when the prefix has a type; dispatch is on `prefix_type.actual_kind()`,
which our model equates with the entity's kind, so the match is written on
the entity itself. -/
def AnalyzeContext.lookup_type_selected (ctx : AnalyzeContext) (pfx_pos : SrcPos)
    (pfx_type : NamedEntity) (suffix : WithPos (WithRef Designator)) :
    AnalysisResult (Option NamedEntities) :=
  match pfx_type with
  | .mk _ (.RecordType region) _ _ =>
      match MemberRegion.lookup_selected region suffix.designator with
      | some decl => .ok (some decl)
      | none => .error (.NotFatal (no_declaration_within pfx_type suffix))
  | .mk _ .OtherAlias _ _ => .ok none
  | .mk _ (.ProtectedType region) _ _ =>
      match MemberRegion.lookup_selected region suffix.designator with
      | some decl => .ok (some decl)
      | none => .error (.NotFatal (no_declaration_within pfx_type suffix))
  | .mk _ (.IncompleteType full) _ _ =>
      match full with
      | some full_type => ctx.lookup_type_selected pfx_pos full_type suffix
      | none => .ok none
  | .mk _ (.Subtype base) _ _ => ctx.lookup_type_selected pfx_pos base suffix
  | .mk _ (.AccessType base) _ _ => ctx.lookup_type_selected pfx_pos base suffix
  | _ => .error (.NotFatal (invalid_selected_name_pfx pfx_type pfx_pos))

/-- `lookup_selected` (semantic.rs lines 16–52): lookup the suffix of a
selected name given the resolved prefix entity. -/
def AnalyzeContext.lookup_selected (ctx : AnalyzeContext) (pfx_pos : SrcPos)
    (pfx : NamedEntity) (suffix : WithPos (WithRef Designator)) :
    AnalysisResult (Option NamedEntities) :=
  match pfx with
  | .mk _ .Library _ _ =>
      let library_name := pfx.designator.expect_identifier
      match ctx.lookup_in_library library_name suffix.pos suffix.designator with
      | .error e => .error e
      | .ok named_entity => .ok (some (NamedEntities.new named_entity))
  | .mk _ .UninstPackage _ _ =>
      .error (.NotFatal (invalid_selected_name_pfx pfx pfx_pos))
  | .mk _ (.Object base) _ _ => ctx.lookup_type_selected pfx_pos base suffix
  | .mk _ (.ElementDeclaration base) _ _ => ctx.lookup_type_selected pfx_pos base suffix
  | .mk _ (.Package region) _ _
  | .mk _ (.PackageInstance region) _ _
  | .mk _ (.LocalPackageInstance region) _ _ =>
      match MemberRegion.lookup_selected region suffix.designator with
      | some decl => .ok (some decl)
      | none => .error (.NotFatal (no_declaration_within pfx suffix))
  | .mk _ .OtherAlias _ _ => .ok none
  | _ => .error (.NotFatal (invalid_selected_name_pfx pfx pfx_pos))

/-- `SelectedName` (ast): a dotted chain of designators. -/
inductive SelectedName where
  | Selected (pfx : WithPos SelectedName) (suffix : WithPos (WithRef Designator))
  | Designator (d : WithRef Designator)

/-- Modelled from the spec: `suffix_pos()` on a positioned selected name
(ast helper outside `src/`): the position of the name's suffix — the suffix
node of a dotted name, the whole name otherwise. -/
def suffix_pos (name : WithPos SelectedName) : SrcPos :=
  match name.item with
  | .Selected _ suffix => suffix.pos
  | .Designator _ => name.pos

/-- `resolve_selected_name` (semantic.rs lines 98–129).  The updated name
node (reference slots written in place in Rust) is returned alongside the
result. -/
def AnalyzeContext.resolve_selected_name (ctx : AnalyzeContext) (region : Region) :
    WithPos SelectedName → AnalysisResult NamedEntities × WithPos SelectedName
  | ⟨.Selected pfx suffix, pos⟩ =>
    let suffix := suffix.clear_reference
    match ctx.resolve_selected_name region pfx with
    | (.error e, pfx') => (.error e, ⟨.Selected pfx' suffix, pos⟩)
    | (.ok ents, pfx') =>
      match ents.into_non_overloaded with
      | .ok pfx_ent =>
        match ctx.lookup_selected pfx'.pos pfx_ent suffix with
        | .error err => (.error err, ⟨.Selected pfx' suffix, pos⟩)
        | .ok (some visible) =>
            (.ok visible, ⟨.Selected pfx' (suffix.set_reference visible), pos⟩)
        | .ok none =>
            (.error (.NotFatal (Diagnostic.error pfx'.pos ("Invalid prefix for selected name"))),
             ⟨.Selected pfx' suffix, pos⟩)
      | .error _ =>
          (.error (.NotFatal (Diagnostic.error pfx'.pos ("Invalid prefix for selected name"))),
           ⟨.Selected pfx' suffix, pos⟩)
  | ⟨.Designator designator, pos⟩ =>
    let designator := designator.clear_reference
    match region.lookup_within pos designator.designator with
    | .error diagnostic => (.error (.NotFatal diagnostic), ⟨.Designator designator, pos⟩)
    | .ok visible =>
        (.ok visible, ⟨.Designator (designator.set_reference visible), pos⟩)

/-- Modelled from the spec: `NamedEntityKind::is_type` (defined outside
`src/`): whether a kind is a type declaration. -/
def NamedEntityKind.is_type : NamedEntityKind → Bool
  | .RecordType _ => true
  | .ProtectedType _ => true
  | .IncompleteType _ => true
  | .Subtype _ => true
  | .AccessType _ => true
  | _ => false

/-- `resolve_non_overloaded` (semantic.rs lines 235–273). -/
def AnalyzeContext.resolve_non_overloaded (ctx : AnalyzeContext) (region : Region)
    (name : WithPos SelectedName) (kind_ok : NamedEntityKind → Bool) (expected : String) :
    AnalysisResult NamedEntity × WithPos SelectedName :=
  match ctx.resolve_selected_name region name with
  | (.error e, name') => (.error e, name')
  | (.ok ents, name') =>
    match ents.into_non_overloaded with
    | .ok ent =>
      if kind_ok ent.actual_kind then (.ok ent, name')
      else
        let error0 := Diagnostic.error (suffix_pos name')
          ("Expected " ++ expected ++ ", got " ++ ent.describe)
        let error1 :=
          match ent.decl_pos with
          | some pos => error0.add_related pos "Defined here"
          | none => error0
        (.error (.NotFatal error1), name')
    | .error overloaded =>
      let error0 := Diagnostic.error (suffix_pos name')
        ("Expected " ++ expected ++ ", got overloaded name")
      let error1 := overloaded.entities.foldl
        (fun e ent =>
          match ent.decl_pos with
          | some pos => e.add_related pos "Defined here"
          | none => e) error0
      (.error (.NotFatal error1), name')

/-- `resolve_type_mark` (semantic.rs lines 275–281). -/
def AnalyzeContext.resolve_type_mark (ctx : AnalyzeContext) (region : Region)
    (type_mark : WithPos SelectedName) : AnalysisResult NamedEntity × WithPos SelectedName :=
  ctx.resolve_non_overloaded region type_mark NamedEntityKind.is_type "type"

/-- `ExternalName` (ast): only its `subtype` field is consumed here
(`ExternalName { subtype, .. }`). -/
structure ExternalName where
  subtype : SubtypeIndication

mutual

/-- `Name` (ast): the syntactic name forms dispatched on by
`resolve_name`. -/
inductive Name where
  | Designator (d : WithRef Designator)
  | Selected (pfx : WithPos Name) (suffix : WithPos (WithRef Designator))
  | SelectedAll (pfx : WithPos Name)
  | Indexed (pfx : WithPos Name) (exprs : List (WithPos Expression))
  | Slice (pfx : WithPos Name) (drange : DiscreteRange)
  | Attribute (attr : AttributeName)
  | FunctionCall (fcall : FunctionCall)
  | External (ename : ExternalName)

/-- `Expression` (ast); `Binary`/`Unary` operators and literals are opaque
to this analysis and carried as tags. -/
inductive Expression where
  | Binary (op : String) (left : WithPos Expression) (right : WithPos Expression)
  | Unary (op : String) (inner : WithPos Expression)
  | Name (name : Name)
  | Aggregate (assocs : List ElementAssociation)
  | Qualified (qexpr : QualifiedExpression)
  | New (alloc : WithPos Allocator)
  | Literal (lit : String)

/-- `DiscreteRange` (ast). -/
inductive DiscreteRange where
  | Discrete (type_mark : WithPos SelectedName) (range : Option Range)
  | Range (range : Range)

/-- `Range` (ast); the constraint form carries its bound expressions
(direction is opaque to this analysis and elided). -/
inductive Range where
  | Range (constraint : RangeConstraint)
  | Attribute (attr : AttributeName)

/-- `RangeConstraint` (ast): the two bound expressions. -/
inductive RangeConstraint where
  | mk (left_expr : WithPos Expression) (right_expr : WithPos Expression)

/-- `AttributeName` (ast): the attributed name, optional signature and
optional expression argument (the attribute designator itself is opaque to
this analysis and elided). -/
inductive AttributeName where
  | mk (name : WithPos Name) (signature : Option (WithPos Signature))
       (expr : Option (WithPos Expression))

/-- `FunctionCall` (ast). -/
inductive FunctionCall where
  | mk (name : WithPos Name) (parameters : List AssociationElement)

/-- `AssociationElement` (ast): only the actual part is consumed here. -/
inductive AssociationElement where
  | mk (actual : WithPos ActualPart)

/-- `ActualPart` (ast). -/
inductive ActualPart where
  | Expression (expr : Expression)
  | Open

/-- `QualifiedExpression` (ast). -/
inductive QualifiedExpression where
  | mk (name : WithPos Name) (expr : WithPos Expression)

/-- `Allocator` (ast). -/
inductive Allocator where
  | Qualified (qexpr : QualifiedExpression)
  | Subtype (subtype : SubtypeIndication)

/-- `ElementAssociation` (ast). -/
inductive ElementAssociation where
  | Named (choices : List Choice) (expr : WithPos Expression)
  | Positional (expr : WithPos Expression)

/-- `Choice` (ast). -/
inductive Choice where
  | Expression (expr : WithPos Expression)
  | DiscreteRange (drange : DiscreteRange)
  | Others

end

/-- `WaveformElement` (ast). -/
structure WaveformElement where
  value : WithPos Expression
  after : Option (WithPos Expression)

/-- `Waveform` (ast). -/
inductive Waveform where
  | Elements (elems : List WaveformElement)
  | Unaffected

/-- `Conditional<T>` (ast). -/
structure Conditional (T : Type) where
  condition : WithPos Expression
  item : T

/-- `Conditionals<T>` (ast). -/
structure Conditionals (T : Type) where
  conditionals : List (Conditional T)
  else_item : Option T

/-- `Alternative<T>` (ast). -/
structure Alternative (T : Type) where
  choices : List Choice
  item : T

/-- `Selection<T>` (ast). -/
structure Selection (T : Type) where
  expression : WithPos Expression
  alternatives : List (Alternative T)

/-- `AssignmentRightHand<T>` (ast). -/
inductive AssignmentRightHand (T : Type) where
  | Simple (item : T)
  | Conditional (conditionals : Conditionals T)
  | Selected (selection : Selection T)

mutual

/-- `resolve_name` (semantic.rs lines 159–233).  Returns the fatal-or-ok
outcome, the updated name node, and the diagnostics pushed to the sink, in
order. -/
def AnalyzeContext.resolve_name (ctx : AnalyzeContext) (region : Region)
    (name_pos : SrcPos) :
    Name → FatalResult (Option NamedEntities) × Name × List Diagnostic
  | .Selected ⟨pitem, ppos⟩ suffix =>
    let suffix := suffix.clear_reference
    match ctx.resolve_pfx region ppos pitem with
    | (.error e, p', ds) => (.error e, .Selected ⟨p', ppos⟩ suffix, ds)
    | (.ok (some named_entity), p', ds) =>
      match ctx.lookup_selected ppos named_entity suffix with
      | .ok (some visible) =>
          (.ok (some visible), .Selected ⟨p', ppos⟩ (suffix.set_reference visible), ds)
      | .ok none => (.ok none, .Selected ⟨p', ppos⟩ suffix, ds)
      | .error err =>
        match err.add_to with
        | (.ok _, ds2) => (.ok none, .Selected ⟨p', ppos⟩ suffix, ds ++ ds2)
        | (.error e, ds2) => (.error e, .Selected ⟨p', ppos⟩ suffix, ds ++ ds2)
    | (.ok none, p', ds) => (.ok none, .Selected ⟨p', ppos⟩ suffix, ds)
  | .SelectedAll ⟨pitem, ppos⟩ =>
    match ctx.resolve_pfx region ppos pitem with
    | (.error e, p', ds) => (.error e, .SelectedAll ⟨p', ppos⟩, ds)
    | (.ok _, p', ds) => (.ok none, .SelectedAll ⟨p', ppos⟩, ds)
  | .Designator designator =>
    let designator := designator.clear_reference
    match region.lookup_within name_pos designator.designator with
    | .ok visible =>
        (.ok (some visible), .Designator (designator.set_reference visible), [])
    | .error diagnostic => (.ok none, .Designator designator, [diagnostic])
  | .Indexed ⟨pitem, ppos⟩ exprs =>
    match ctx.resolve_name region ppos pitem with
    | (.error e, p', ds) => (.error e, .Indexed ⟨p', ppos⟩ exprs, ds)
    | (.ok _, p', ds) =>
      match ctx.analyze_expr_list region exprs with
      | (.error e, exprs', ds2) => (.error e, .Indexed ⟨p', ppos⟩ exprs', ds ++ ds2)
      | (.ok _, exprs', ds2) => (.ok none, .Indexed ⟨p', ppos⟩ exprs', ds ++ ds2)
  | .Slice ⟨pitem, ppos⟩ drange =>
    match ctx.resolve_name region ppos pitem with
    | (.error e, p', ds) => (.error e, .Slice ⟨p', ppos⟩ drange, ds)
    | (.ok _, p', ds) =>
      match ctx.analyze_discrete_range region drange with
      | (.error e, dr', ds2) => (.error e, .Slice ⟨p', ppos⟩ dr', ds ++ ds2)
      | (.ok _, dr', ds2) => (.ok none, .Slice ⟨p', ppos⟩ dr', ds ++ ds2)
  | .Attribute attr =>
    match ctx.analyze_attribute_name region attr with
    | (.error e, a', ds) => (.error e, .Attribute a', ds)
    | (.ok _, a', ds) => (.ok none, .Attribute a', ds)
  | .FunctionCall fcall =>
    match ctx.analyze_function_call region fcall with
    | (.error e, f', ds) => (.error e, .FunctionCall f', ds)
    | (.ok _, f', ds) => (.ok none, .FunctionCall f', ds)
  | .External ename =>
    match ctx.analyze_subtype_indication region ename.subtype with
    | (.error e, st', ds) => (.error e, .External ⟨st'⟩, ds)
    | (.ok _, st', ds) => (.ok none, .External ⟨st'⟩, ds)
termination_by n => (sizeOf n, 0)

/-- `resolve_prefix` (semantic.rs lines 131–157), rendered `resolve_pfx`:
resolve a name expected to denote a single non-overloaded entity. -/
def AnalyzeContext.resolve_pfx (ctx : AnalyzeContext) (region : Region)
    (pfx_pos : SrcPos) (pfx : Name) :
    FatalResult (Option NamedEntity) × Name × List Diagnostic :=
  match ctx.resolve_name region pfx_pos pfx with
  | (.error e, p', ds) => (.error e, p', ds)
  | (.ok resolved_name, p', ds) =>
    match resolved_name with
    | some (NamedEntities.Single ent) => (.ok (some ent), p', ds)
    | some (NamedEntities.Overloaded overloaded) =>
        (.ok none, p',
         ds ++ [Diagnostic.error pfx_pos
           ("Overloaded name " ++ squote ++ overloaded.designator ++ squote
             ++ " may not be the prefix of selected name")])
    | none => (.ok none, p', ds)
termination_by (sizeOf pfx, 1)

/-- `analyze_expression` (semantic.rs lines 370–377). -/
def AnalyzeContext.analyze_expression (ctx : AnalyzeContext) (region : Region) :
    WithPos Expression → FatalResult Unit × WithPos Expression × List Diagnostic
  | ⟨item, pos⟩ =>
    match ctx.analyze_expression_pos region pos item with
    | (r, e', ds) => (r, ⟨e', pos⟩, ds)
termination_by e => (sizeOf e, 0)

/-- `analyze_expression_pos` (semantic.rs lines 470–506). -/
def AnalyzeContext.analyze_expression_pos (ctx : AnalyzeContext) (region : Region)
    (pos : SrcPos) :
    Expression → FatalResult Unit × Expression × List Diagnostic
  | .Binary op left right =>
    match ctx.analyze_expression region left with
    | (.error e, l', ds) => (.error e, .Binary op l' right, ds)
    | (.ok _, l', ds) =>
      match ctx.analyze_expression region right with
      | (r, r', ds2) => (r, .Binary op l' r', ds ++ ds2)
  | .Unary op inner =>
    match ctx.analyze_expression region inner with
    | (r, i', ds) => (r, .Unary op i', ds)
  | .Name name =>
    match ctx.resolve_name region pos name with
    | (.error e, n', ds) => (.error e, .Name n', ds)
    | (.ok _, n', ds) => (.ok (), .Name n', ds)
  | .Aggregate assocs =>
    match ctx.analyze_aggregate region assocs with
    | (r, a', ds) => (r, .Aggregate a', ds)
  | .Qualified qexpr =>
    match ctx.analyze_qualified_expression region qexpr with
    | (r, q', ds) => (r, .Qualified q', ds)
  | .New ⟨aitem, apos⟩ =>
    match aitem with
    | .Qualified qexpr =>
      match ctx.analyze_qualified_expression region qexpr with
      | (r, q', ds) => (r, .New ⟨.Qualified q', apos⟩, ds)
    | .Subtype subtype =>
      match ctx.analyze_subtype_indication region subtype with
      | (r, st', ds) => (r, .New ⟨.Subtype st', apos⟩, ds)
  | .Literal lit => (.ok (), .Literal lit, [])
termination_by e => (sizeOf e, 0)

/-- The loop over index expressions in the `Indexed` arm of
`resolve_name` (semantic.rs lines 208–210). -/
def AnalyzeContext.analyze_expr_list (ctx : AnalyzeContext) (region : Region) :
    List (WithPos Expression) →
      FatalResult Unit × List (WithPos Expression) × List Diagnostic
  | [] => (.ok (), [], [])
  | expr :: rest =>
    match ctx.analyze_expression region expr with
    | (.error e, e', ds) => (.error e, e' :: rest, ds)
    | (.ok _, e', ds) =>
      match ctx.analyze_expr_list region rest with
      | (r, rest', ds2) => (r, e' :: rest', ds ++ ds2)
termination_by l => (sizeOf l, 0)

/-- `analyze_attribute_name` (semantic.rs lines 283–308). -/
def AnalyzeContext.analyze_attribute_name (ctx : AnalyzeContext) (region : Region) :
    AttributeName → FatalResult Unit × AttributeName × List Diagnostic
  | .mk ⟨nitem, npos⟩ signature expr =>
    match ctx.resolve_name region npos nitem with
    | (.error e, n', ds) => (.error e, .mk ⟨n', npos⟩ signature expr, ds)
    | (.ok _, n', ds) =>
      let sigStep : FatalResult Unit × Option (WithPos Signature) × List Diagnostic :=
        match signature with
        | some sig =>
          match ctx.resolve_signature region sig with
          | (.error err, sig') =>
            match err.add_to with
            | (r2, ds2) => (r2, some sig', ds2)
          | (.ok _, sig') => (.ok (), some sig', [])
        | none => (.ok (), none, [])
      match sigStep with
      | (.error e, sig', ds2) => (.error e, .mk ⟨n', npos⟩ sig' expr, ds ++ ds2)
      | (.ok _, sig', ds2) =>
        match expr with
        | some ex =>
          match ctx.analyze_expression region ex with
          | (r, ex', ds3) => (r, .mk ⟨n', npos⟩ sig' (some ex'), ds ++ ds2 ++ ds3)
        | none => (.ok (), .mk ⟨n', npos⟩ sig' none, ds ++ ds2)
termination_by a => (sizeOf a, 0)

/-- `analyze_range` (semantic.rs lines 310–326). -/
def AnalyzeContext.analyze_range (ctx : AnalyzeContext) (region : Region) :
    Range → FatalResult Unit × Range × List Diagnostic
  | .Range (.mk left_expr right_expr) =>
    match ctx.analyze_expression region left_expr with
    | (.error e, l', ds) => (.error e, .Range (.mk l' right_expr), ds)
    | (.ok _, l', ds) =>
      match ctx.analyze_expression region right_expr with
      | (r, r', ds2) => (r, .Range (.mk l' r'), ds ++ ds2)
  | .Attribute attr =>
    match ctx.analyze_attribute_name region attr with
    | (r, a', ds) => (r, .Attribute a', ds)
termination_by r => (sizeOf r, 0)

/-- `analyze_discrete_range` (semantic.rs lines 328–348). -/
def AnalyzeContext.analyze_discrete_range (ctx : AnalyzeContext) (region : Region) :
    DiscreteRange → FatalResult Unit × DiscreteRange × List Diagnostic
  | .Discrete type_mark range =>
    let tmStep : FatalResult Unit × WithPos SelectedName × List Diagnostic :=
      match ctx.resolve_type_mark region type_mark with
      | (.error err, tm') =>
        match err.add_to with
        | (r2, ds) => (r2, tm', ds)
      | (.ok _, tm') => (.ok (), tm', [])
    match tmStep with
    | (.error e, tm', ds) => (.error e, .Discrete tm' range, ds)
    | (.ok _, tm', ds) =>
      match range with
      | some r0 =>
        match ctx.analyze_range region r0 with
        | (r, r0', ds2) => (r, .Discrete tm' (some r0'), ds ++ ds2)
      | none => (.ok (), .Discrete tm' none, ds)
  | .Range r0 =>
    match ctx.analyze_range region r0 with
    | (r, r0', ds) => (r, DiscreteRange.Range r0', ds)
termination_by d => (sizeOf d, 0)

/-- `analyze_choices` (semantic.rs lines 350–368). -/
def AnalyzeContext.analyze_choices (ctx : AnalyzeContext) (region : Region) :
    List Choice → FatalResult Unit × List Choice × List Diagnostic
  | [] => (.ok (), [], [])
  | Choice.Expression expr :: rest =>
    match ctx.analyze_expression region expr with
    | (.error e, e', ds) => (.error e, Choice.Expression e' :: rest, ds)
    | (.ok _, e', ds) =>
      match ctx.analyze_choices region rest with
      | (r, rest', ds2) => (r, Choice.Expression e' :: rest', ds ++ ds2)
  | Choice.DiscreteRange drange :: rest =>
    match ctx.analyze_discrete_range region drange with
    | (.error e, d', ds) => (.error e, Choice.DiscreteRange d' :: rest, ds)
    | (.ok _, d', ds) =>
      match ctx.analyze_choices region rest with
      | (r, rest', ds2) => (r, Choice.DiscreteRange d' :: rest', ds ++ ds2)
  | Choice.Others :: rest =>
    match ctx.analyze_choices region rest with
    | (r, rest', ds) => (r, Choice.Others :: rest', ds)
termination_by l => (sizeOf l, 0)

/-- The loop over the choices of a named element association in
`analyze_aggregate` (semantic.rs lines 437–447): expression choices are
deliberately skipped (may be a record field), discrete-range choices are
analyzed. -/
def AnalyzeContext.analyze_aggregate_choices (ctx : AnalyzeContext) (region : Region) :
    List Choice → FatalResult Unit × List Choice × List Diagnostic
  | [] => (.ok (), [], [])
  | Choice.Expression expr :: rest =>
    match ctx.analyze_aggregate_choices region rest with
    | (r, rest', ds) => (r, Choice.Expression expr :: rest', ds)
  | Choice.DiscreteRange drange :: rest =>
    match ctx.analyze_discrete_range region drange with
    | (.error e, d', ds) => (.error e, Choice.DiscreteRange d' :: rest, ds)
    | (.ok _, d', ds) =>
      match ctx.analyze_aggregate_choices region rest with
      | (r, rest', ds2) => (r, Choice.DiscreteRange d' :: rest', ds ++ ds2)
  | Choice.Others :: rest =>
    match ctx.analyze_aggregate_choices region rest with
    | (r, rest', ds) => (r, Choice.Others :: rest', ds)
termination_by l => (sizeOf l, 0)

/-- `analyze_aggregate` (semantic.rs lines 428–456). -/
def AnalyzeContext.analyze_aggregate (ctx : AnalyzeContext) (region : Region) :
    List ElementAssociation →
      FatalResult Unit × List ElementAssociation × List Diagnostic
  | [] => (.ok (), [], [])
  | ElementAssociation.Named choices expr :: rest =>
    match ctx.analyze_aggregate_choices region choices with
    | (.error e, cs', ds) => (.error e, ElementAssociation.Named cs' expr :: rest, ds)
    | (.ok _, cs', ds) =>
      match ctx.analyze_expression region expr with
      | (.error e, e', ds2) =>
          (.error e, ElementAssociation.Named cs' e' :: rest, ds ++ ds2)
      | (.ok _, e', ds2) =>
        match ctx.analyze_aggregate region rest with
        | (r, rest', ds3) =>
            (r, ElementAssociation.Named cs' e' :: rest', ds ++ ds2 ++ ds3)
  | ElementAssociation.Positional expr :: rest =>
    match ctx.analyze_expression region expr with
    | (.error e, e', ds) => (.error e, ElementAssociation.Positional e' :: rest, ds)
    | (.ok _, e', ds) =>
      match ctx.analyze_aggregate region rest with
      | (r, rest', ds2) => (r, ElementAssociation.Positional e' :: rest', ds ++ ds2)
termination_by l => (sizeOf l, 0)

/-- `analyze_qualified_expression` (semantic.rs lines 458–468). -/
def AnalyzeContext.analyze_qualified_expression (ctx : AnalyzeContext) (region : Region) :
    QualifiedExpression → FatalResult Unit × QualifiedExpression × List Diagnostic
  | .mk ⟨nitem, npos⟩ expr =>
    match ctx.resolve_name region npos nitem with
    | (.error e, n', ds) => (.error e, .mk ⟨n', npos⟩ expr, ds)
    | (.ok _, n', ds) =>
      match ctx.analyze_expression region expr with
      | (r, e', ds2) => (r, .mk ⟨n', npos⟩ e', ds ++ ds2)
termination_by q => (sizeOf q, 0)

/-- `analyze_function_call` (semantic.rs lines 417–426). -/
def AnalyzeContext.analyze_function_call (ctx : AnalyzeContext) (region : Region) :
    FunctionCall → FatalResult Unit × FunctionCall × List Diagnostic
  | .mk ⟨nitem, npos⟩ parameters =>
    match ctx.resolve_name region npos nitem with
    | (.error e, n', ds) => (.error e, .mk ⟨n', npos⟩ parameters, ds)
    | (.ok _, n', ds) =>
      match ctx.analyze_assoc_elems region parameters with
      | (r, ps', ds2) => (r, .mk ⟨n', npos⟩ ps', ds ++ ds2)
termination_by f => (sizeOf f, 0)

/-- `analyze_assoc_elems` (semantic.rs lines 400–415). -/
def AnalyzeContext.analyze_assoc_elems (ctx : AnalyzeContext) (region : Region) :
    List AssociationElement →
      FatalResult Unit × List AssociationElement × List Diagnostic
  | [] => (.ok (), [], [])
  | AssociationElement.mk ⟨ActualPart.Expression expr, apos⟩ :: rest =>
    match ctx.analyze_expression_pos region apos expr with
    | (.error e, e', ds) =>
        (.error e, AssociationElement.mk ⟨ActualPart.Expression e', apos⟩ :: rest, ds)
    | (.ok _, e', ds) =>
      match ctx.analyze_assoc_elems region rest with
      | (r, rest', ds2) =>
          (r, AssociationElement.mk ⟨ActualPart.Expression e', apos⟩ :: rest', ds ++ ds2)
  | AssociationElement.mk ⟨ActualPart.Open, apos⟩ :: rest =>
    match ctx.analyze_assoc_elems region rest with
    | (r, rest', ds) => (r, AssociationElement.mk ⟨ActualPart.Open, apos⟩ :: rest', ds)
termination_by l => (sizeOf l, 0)

end

/-- The loop over waveform elements in `analyze_waveform`
(semantic.rs lines 386–393). -/
def AnalyzeContext.analyze_waveform_elements (ctx : AnalyzeContext) (region : Region) :
    List WaveformElement → FatalResult Unit × List WaveformElement × List Diagnostic
  | [] => (.ok (), [], [])
  | ⟨value, after⟩ :: rest =>
    match ctx.analyze_expression region value with
    | (.error e, v', ds) => (.error e, ⟨v', after⟩ :: rest, ds)
    | (.ok _, v', ds) =>
      match after with
      | some aexpr =>
        match ctx.analyze_expression region aexpr with
        | (.error e, a', ds2) => (.error e, ⟨v', some a'⟩ :: rest, ds ++ ds2)
        | (.ok _, a', ds2) =>
          match ctx.analyze_waveform_elements region rest with
          | (r, rest', ds3) => (r, ⟨v', some a'⟩ :: rest', ds ++ ds2 ++ ds3)
      | none =>
        match ctx.analyze_waveform_elements region rest with
        | (r, rest', ds2) => (r, ⟨v', none⟩ :: rest', ds ++ ds2)

/-- `analyze_waveform` (semantic.rs lines 379–398). -/
def AnalyzeContext.analyze_waveform (ctx : AnalyzeContext) (region : Region) :
    Waveform → FatalResult Unit × Waveform × List Diagnostic
  | .Elements elems =>
    match ctx.analyze_waveform_elements region elems with
    | (r, elems', ds) => (r, .Elements elems', ds)
  | .Unaffected => (.ok (), .Unaffected, [])

/-- The loop over condition/value pairs in the `Conditional` arm of
`analyze_expr_assignment` (semantic.rs lines 529–533): the value (`item`)
is analyzed before the condition. -/
def AnalyzeContext.analyze_expr_conditionals (ctx : AnalyzeContext) (region : Region) :
    List (Conditional (WithPos Expression)) →
      FatalResult Unit × List (Conditional (WithPos Expression)) × List Diagnostic
  | [] => (.ok (), [], [])
  | ⟨condition, item⟩ :: rest =>
    match ctx.analyze_expression region item with
    | (.error e, i', ds) => (.error e, ⟨condition, i'⟩ :: rest, ds)
    | (.ok _, i', ds) =>
      match ctx.analyze_expression region condition with
      | (.error e, c', ds2) => (.error e, ⟨c', i'⟩ :: rest, ds ++ ds2)
      | (.ok _, c', ds2) =>
        match ctx.analyze_expr_conditionals region rest with
        | (r, rest', ds3) => (r, ⟨c', i'⟩ :: rest', ds ++ ds2 ++ ds3)

/-- The loop over alternatives in the `Selected` arm of
`analyze_expr_assignment` (semantic.rs lines 546–549): the value (`item`)
is analyzed before its choices. -/
def AnalyzeContext.analyze_expr_alternatives (ctx : AnalyzeContext) (region : Region) :
    List (Alternative (WithPos Expression)) →
      FatalResult Unit × List (Alternative (WithPos Expression)) × List Diagnostic
  | [] => (.ok (), [], [])
  | ⟨choices, item⟩ :: rest =>
    match ctx.analyze_expression region item with
    | (.error e, i', ds) => (.error e, ⟨choices, i'⟩ :: rest, ds)
    | (.ok _, i', ds) =>
      match ctx.analyze_choices region choices with
      | (.error e, cs', ds2) => (.error e, ⟨cs', i'⟩ :: rest, ds ++ ds2)
      | (.ok _, cs', ds2) =>
        match ctx.analyze_expr_alternatives region rest with
        | (r, rest', ds3) => (r, ⟨cs', i'⟩ :: rest', ds ++ ds2 ++ ds3)

/-- `analyze_expr_assignment` (semantic.rs lines 510–553). -/
def AnalyzeContext.analyze_expr_assignment (ctx : AnalyzeContext) (region : Region)
    (target : WithPos Target) (assignment_type : AssignmentType)
    (rhs : AssignmentRightHand (WithPos Expression)) :
    FatalResult Unit × WithPos Target × AssignmentRightHand (WithPos Expression)
      × List Diagnostic :=
  match rhs with
  | .Simple expr =>
    match ctx.analyze_target region target assignment_type with
    | (.error e, t', ds) => (.error e, t', .Simple expr, ds)
    | (.ok _, t', ds) =>
      match ctx.analyze_expression region expr with
      | (r, e', ds2) => (r, t', .Simple e', ds ++ ds2)
  | .Conditional ⟨conditionals, else_item⟩ =>
    match ctx.analyze_target region target assignment_type with
    | (.error e, t', ds) => (.error e, t', .Conditional ⟨conditionals, else_item⟩, ds)
    | (.ok _, t', ds) =>
      match ctx.analyze_expr_conditionals region conditionals with
      | (.error e, cs', ds2) => (.error e, t', .Conditional ⟨cs', else_item⟩, ds ++ ds2)
      | (.ok _, cs', ds2) =>
        match else_item with
        | some expr =>
          match ctx.analyze_expression region expr with
          | (r, e', ds3) => (r, t', .Conditional ⟨cs', some e'⟩, ds ++ ds2 ++ ds3)
        | none => (.ok (), t', .Conditional ⟨cs', none⟩, ds ++ ds2)
  | .Selected ⟨expression, alternatives⟩ =>
    match ctx.analyze_expression region expression with
    | (.error e, ex', ds) => (.error e, target, .Selected ⟨ex', alternatives⟩, ds)
    | (.ok _, ex', ds) =>
      match ctx.analyze_target region target assignment_type with
      | (.error e, t', ds2) => (.error e, t', .Selected ⟨ex', alternatives⟩, ds ++ ds2)
      | (.ok _, t', ds2) =>
        match ctx.analyze_expr_alternatives region alternatives with
        | (r, alts', ds3) => (r, t', .Selected ⟨ex', alts'⟩, ds ++ ds2 ++ ds3)

/-- The loop over condition/value pairs in the `Conditional` arm of
`analyze_waveform_assignment` (semantic.rs lines 574–578). -/
def AnalyzeContext.analyze_waveform_conditionals (ctx : AnalyzeContext) (region : Region) :
    List (Conditional Waveform) →
      FatalResult Unit × List (Conditional Waveform) × List Diagnostic
  | [] => (.ok (), [], [])
  | ⟨condition, item⟩ :: rest =>
    match ctx.analyze_waveform region item with
    | (.error e, i', ds) => (.error e, ⟨condition, i'⟩ :: rest, ds)
    | (.ok _, i', ds) =>
      match ctx.analyze_expression region condition with
      | (.error e, c', ds2) => (.error e, ⟨c', i'⟩ :: rest, ds ++ ds2)
      | (.ok _, c', ds2) =>
        match ctx.analyze_waveform_conditionals region rest with
        | (r, rest', ds3) => (r, ⟨c', i'⟩ :: rest', ds ++ ds2 ++ ds3)

/-- The loop over alternatives in the `Selected` arm of
`analyze_waveform_assignment` (semantic.rs lines 591–594). -/
def AnalyzeContext.analyze_waveform_alternatives (ctx : AnalyzeContext) (region : Region) :
    List (Alternative Waveform) →
      FatalResult Unit × List (Alternative Waveform) × List Diagnostic
  | [] => (.ok (), [], [])
  | ⟨choices, item⟩ :: rest =>
    match ctx.analyze_waveform region item with
    | (.error e, i', ds) => (.error e, ⟨choices, i'⟩ :: rest, ds)
    | (.ok _, i', ds) =>
      match ctx.analyze_choices region choices with
      | (.error e, cs', ds2) => (.error e, ⟨cs', i'⟩ :: rest, ds ++ ds2)
      | (.ok _, cs', ds2) =>
        match ctx.analyze_waveform_alternatives region rest with
        | (r, rest', ds3) => (r, ⟨cs', i'⟩ :: rest', ds ++ ds2 ++ ds3)

/-- `analyze_waveform_assignment` (semantic.rs lines 555–598). -/
def AnalyzeContext.analyze_waveform_assignment (ctx : AnalyzeContext) (region : Region)
    (target : WithPos Target) (assignment_type : AssignmentType)
    (rhs : AssignmentRightHand Waveform) :
    FatalResult Unit × WithPos Target × AssignmentRightHand Waveform
      × List Diagnostic :=
  match rhs with
  | .Simple wavf =>
    match ctx.analyze_target region target assignment_type with
    | (.error e, t', ds) => (.error e, t', .Simple wavf, ds)
    | (.ok _, t', ds) =>
      match ctx.analyze_waveform region wavf with
      | (r, w', ds2) => (r, t', .Simple w', ds ++ ds2)
  | .Conditional ⟨conditionals, else_item⟩ =>
    match ctx.analyze_target region target assignment_type with
    | (.error e, t', ds) => (.error e, t', .Conditional ⟨conditionals, else_item⟩, ds)
    | (.ok _, t', ds) =>
      match ctx.analyze_waveform_conditionals region conditionals with
      | (.error e, cs', ds2) => (.error e, t', .Conditional ⟨cs', else_item⟩, ds ++ ds2)
      | (.ok _, cs', ds2) =>
        match else_item with
        | some wavf =>
          match ctx.analyze_waveform region wavf with
          | (r, w', ds3) => (r, t', .Conditional ⟨cs', some w'⟩, ds ++ ds2 ++ ds3)
        | none => (.ok (), t', .Conditional ⟨cs', none⟩, ds ++ ds2)
  | .Selected ⟨expression, alternatives⟩ =>
    match ctx.analyze_expression region expression with
    | (.error e, ex', ds) => (.error e, target, .Selected ⟨ex', alternatives⟩, ds)
    | (.ok _, ex', ds) =>
      match ctx.analyze_target region target assignment_type with
      | (.error e, t', ds2) => (.error e, t', .Selected ⟨ex', alternatives⟩, ds ++ ds2)
      | (.ok _, t', ds2) =>
        match ctx.analyze_waveform_alternatives region alternatives with
        | (r, alts', ds3) => (r, t', .Selected ⟨ex', alts'⟩, ds ++ ds2 ++ ds3)

/-- One `Subtype` or `AccessType` indirection layer, with the wrapper
entity's own designator, declaration position and description. -/
inductive TypeWrapper where
  | subtypeWrap (designator : Designator) (decl_pos : Option SrcPos) (describe : String)
  | accessWrap (designator : Designator) (decl_pos : Option SrcPos) (describe : String)

/-- Wrap a type entity in a finite chain of `Subtype` / `AccessType`
indirections. -/
def wrapType : List TypeWrapper → NamedEntity → NamedEntity
  | [], t => t
  | .subtypeWrap d p s :: rest, t => .mk d (.Subtype (wrapType rest t)) p s
  | .accessWrap d p s :: rest, t => .mk d (.AccessType (wrapType rest t)) p s

/-- Clear every reference slot of a selected name. -/
def eraseSelRefs : WithPos SelectedName → WithPos SelectedName
  | ⟨.Selected pfx suffix, pos⟩ =>
      ⟨.Selected (eraseSelRefs pfx) suffix.clear_reference, pos⟩
  | ⟨.Designator d, pos⟩ => ⟨.Designator d.clear_reference, pos⟩

/-- Clear the reference slots along the designator / selected / selected-all
spine of a name (the slots written by `resolve_name` itself); other name
forms carry their slots in subsidiary nodes and are left unchanged. -/
def clearNameRefs : Name → Name
  | .Designator d => .Designator d.clear_reference
  | .Selected ⟨pitem, ppos⟩ suffix =>
      .Selected ⟨clearNameRefs pitem, ppos⟩ suffix.clear_reference
  | .SelectedAll ⟨pitem, ppos⟩ => .SelectedAll ⟨clearNameRefs pitem, ppos⟩
  | n => n

/-- The names built only from designators, selected names and
selected-all names: exactly the shapes in whose `resolve_name` arms
reference slots are written. -/
inductive SelectedNameForm : Name → Prop where
  | designator (d : WithRef Designator) : SelectedNameForm (.Designator d)
  | selected (pitem : Name) (ppos : SrcPos) (suffix : WithPos (WithRef Designator)) :
      SelectedNameForm pitem → SelectedNameForm (.Selected ⟨pitem, ppos⟩ suffix)
  | selectedAll (pitem : Name) (ppos : SrcPos) :
      SelectedNameForm pitem → SelectedNameForm (.SelectedAll ⟨pitem, ppos⟩)

/-- Modelled from the spec: for a conditional right-hand side, "for each
condition/value pair analyze the value before the condition" — the
diagnostics stream this ordering produces. -/
def spec_conditionals_diag_order (ctx : AnalyzeContext) (region : Region) :
    List (Conditional (WithPos Expression)) → List Diagnostic
  | [] => []
  | c :: rest =>
    (ctx.analyze_expression region c.item).2.2
      ++ (ctx.analyze_expression region c.condition).2.2
      ++ spec_conditionals_diag_order ctx region rest

/-- Modelled from the spec: for a selected right-hand side, "for each
alternative analyze its value before its choices" — the diagnostics stream
this ordering produces. -/
def spec_alternatives_diag_order (ctx : AnalyzeContext) (region : Region) :
    List (Alternative (WithPos Expression)) → List Diagnostic
  | [] => []
  | a :: rest =>
    (ctx.analyze_expression region a.item).2.2
      ++ (ctx.analyze_choices region a.choices).2.2
      ++ spec_alternatives_diag_order ctx region rest

/-- Modelled from the spec: the waveform counterpart of
`spec_conditionals_diag_order`. -/
def spec_wconditionals_diag_order (ctx : AnalyzeContext) (region : Region) :
    List (Conditional Waveform) → List Diagnostic
  | [] => []
  | c :: rest =>
    (ctx.analyze_waveform region c.item).2.2
      ++ (ctx.analyze_expression region c.condition).2.2
      ++ spec_wconditionals_diag_order ctx region rest

/-- Modelled from the spec: the waveform counterpart of
`spec_alternatives_diag_order`. -/
def spec_walternatives_diag_order (ctx : AnalyzeContext) (region : Region) :
    List (Alternative Waveform) → List Diagnostic
  | [] => []
  | a :: rest =>
    (ctx.analyze_waveform region a.item).2.2
      ++ (ctx.analyze_choices region a.choices).2.2
      ++ spec_walternatives_diag_order ctx region rest

/-- Structural induction principle for positioned selected names. -/
def selnameInd (motive : WithPos SelectedName → Prop)
    (hdes : ∀ (d : WithRef Designator) (pos : SrcPos), motive ⟨.Designator d, pos⟩)
    (hsel : ∀ (pfx : WithPos SelectedName) (suffix : WithPos (WithRef Designator))
      (pos : SrcPos), motive pfx → motive ⟨.Selected pfx suffix, pos⟩) :
    ∀ n, motive n
  | ⟨.Designator d, pos⟩ => hdes d pos
  | ⟨.Selected pfx suffix, pos⟩ =>
      hsel pfx suffix pos (selnameInd motive hdes hsel pfx)

/-- A base type entity used by witness scenarios. -/
def entInt : NamedEntity := .mk "integer" (.Other "integer type") none "integer type integer"

/-- A record field entity used by witness scenarios. -/
def entX : NamedEntity := .mk "x" (.ElementDeclaration entInt) (some 10) "element x"

/-- A package entity with one member `x`, used by witness scenarios. -/
def pkgP : NamedEntity := .mk "pkg" (.Package [("x", .Single entX)]) (some 30) "package pkg"

/-- A subprogram entity used by witness scenarios. -/
def entSub1 : NamedEntity := .mk "f" .Subprogram (some 100) "subprogram f"

/-- A second subprogram entity used by witness scenarios. -/
def entSub2 : NamedEntity := .mk "f" .Subprogram none "subprogram f"

/-- An overloaded set of two subprograms named `f`. -/
def ovF : OverloadedName := .mk "f" [entSub1, entSub2]

/-- An alias entity of imprecise kind, used by witness scenarios. -/
def entAl : NamedEntity := .mk "al" .OtherAlias (some 40) "alias al"

/-- External collaborators for witness scenarios: no libraries, and
signature / subtype / target analysis succeed silently. -/
def ctx0 : AnalyzeContext where
  lookup_in_library := fun _ _ _ => .error (.Fatal .mk)
  resolve_signature := fun _ sig => (.ok (), sig)
  analyze_subtype_indication := fun _ st => (.ok (), st, [])
  analyze_target := fun _ t _ => (.ok (), t, [])

/-- A scope in which every plain lookup yields the overloaded set `ovF`. -/
def regOv : Region := ⟨fun _ _ => .ok (.Overloaded ovF)⟩

/-- A scope in which every plain lookup yields the single alias entity. -/
def regAl : Region := ⟨fun _ _ => .ok (.Single entAl)⟩

/-- The lookup failure diagnostic of `regErr`. -/
def diagNotFound : Diagnostic := Diagnostic.error 3 "not declared"

/-- A scope in which every plain lookup fails with `diagNotFound`. -/
def regErr : Region := ⟨fun _ _ => .error diagNotFound⟩

/-- Clearing a slot twice equals clearing it once. -/
theorem clear_clear (w : WithPos (WithRef T)) :
    w.clear_reference.clear_reference = w.clear_reference := rfl

/-- Clearing a slot after setting it equals clearing the original. -/
theorem clear_set (w : WithPos (WithRef T)) (v : NamedEntities) :
    (w.set_reference v).clear_reference = w.clear_reference := rfl

/-- C2: for every suffix and every finite chain of `Subtype` and
`AccessType` wrappers around a type entity `T`, `lookup_type_selected` on
the wrapped type returns the same result as on `T` directly; in
particular a field lookup against `Subtype(Subtype(RecordType R))` equals
one against `RecordType R`. -/
theorem lookup_type_selected_indirection_transparent :
    (∀ (ctx : AnalyzeContext) (pos : SrcPos) (chain : List TypeWrapper)
       (t : NamedEntity) (suffix : WithPos (WithRef Designator)),
       ctx.lookup_type_selected pos (wrapType chain t) suffix
         = ctx.lookup_type_selected pos t suffix)
    ∧ (∀ (ctx : AnalyzeContext) (pos : SrcPos) (suffix : WithPos (WithRef Designator))
         (d1 d2 dR : Designator) (p1 p2 pR : Option SrcPos) (s1 s2 sR : String)
         (R : MemberRegion),
       ctx.lookup_type_selected pos
           (.mk d1 (.Subtype (.mk d2 (.Subtype (.mk dR (.RecordType R) pR sR)) p2 s2)) p1 s1)
           suffix
         = ctx.lookup_type_selected pos (.mk dR (.RecordType R) pR sR) suffix) := by
  have h : ∀ (ctx : AnalyzeContext) (pos : SrcPos) (chain : List TypeWrapper)
      (t : NamedEntity) (suffix : WithPos (WithRef Designator)),
      ctx.lookup_type_selected pos (wrapType chain t) suffix
        = ctx.lookup_type_selected pos t suffix := by
    intro ctx pos chain
    induction chain with
    | nil => intro t suffix; rfl
    | cons w rest ih =>
      intro t suffix
      cases w with
      | subtypeWrap d p s =>
          simp only [wrapType, AnalyzeContext.lookup_type_selected]
          exact ih t suffix
      | accessWrap d p s =>
          simp only [wrapType, AnalyzeContext.lookup_type_selected]
          exact ih t suffix
  refine ⟨h, ?_⟩
  intro ctx pos suffix d1 d2 dR p1 p2 pR s1 s2 sR R
  exact h ctx pos [.subtypeWrap d1 p1 s1, .subtypeWrap d2 p2 s2]
    (.mk dR (.RecordType R) pR sR) suffix

/-- C4: `lookup_type_selected` on an `IncompleteType` whose weak forward
reference has not been upgraded returns `Ok(None)` (and, having no
diagnostic sink, produces no diagnostic); once the reference is upgraded
the result equals `lookup_type_selected` on the full type. -/
theorem lookup_type_selected_incomplete_type :
    ∀ (ctx : AnalyzeContext) (pos : SrcPos) (suffix : WithPos (WithRef Designator))
      (d : Designator) (p : Option SrcPos) (s : String),
    (ctx.lookup_type_selected pos (.mk d (.IncompleteType none) p s) suffix = .ok none)
    ∧ (∀ full_type : NamedEntity,
        ctx.lookup_type_selected pos (.mk d (.IncompleteType (some full_type)) p s) suffix
          = ctx.lookup_type_selected pos full_type suffix) := by
  intro ctx pos suffix d p s
  exact ⟨rfl, fun full_type => rfl⟩

/-- C7: both `lookup_selected` and `lookup_type_selected` on an
`OtherAlias` prefix return `Ok(None)`: no entities, no error. -/
theorem other_alias_lookup_none :
    ∀ (ctx : AnalyzeContext) (pos : SrcPos) (suffix : WithPos (WithRef Designator))
      (d : Designator) (p : Option SrcPos) (s : String),
    (ctx.lookup_selected pos (.mk d .OtherAlias p s) suffix = .ok none)
    ∧ (ctx.lookup_type_selected pos (.mk d .OtherAlias p s) suffix = .ok none) := by
  intro ctx pos suffix d p s
  exact ⟨rfl, rfl⟩

/-- C6: for a prefix entity of kind `Package`, `PackageInstance` or
`LocalPackageInstance`, `lookup_selected` returns the entities found in the
member region when the suffix designator is present there, and otherwise a
non-fatal error "No declaration of '<suffix>' within <entity description>"
anchored at the suffix position — it errors exactly when the member lookup
finds nothing. -/
theorem lookup_selected_package_member :
    ∀ (ctx : AnalyzeContext) (pos : SrcPos) (pfx : NamedEntity)
      (suffix : WithPos (WithRef Designator)) (r : MemberRegion),
    (pfx.kind = .Package r ∨ pfx.kind = .PackageInstance r
      ∨ pfx.kind = .LocalPackageInstance r) →
    (∀ decl, MemberRegion.lookup_selected r suffix.designator = some decl →
        ctx.lookup_selected pos pfx suffix = .ok (some decl))
    ∧ (MemberRegion.lookup_selected r suffix.designator = none →
        ctx.lookup_selected pos pfx suffix
          = .error (.NotFatal (Diagnostic.error suffix.pos
              ("No declaration of " ++ squote ++ suffix.item.item ++ squote
                ++ " within " ++ pfx.describe)))) := by
  intro ctx pos pfx suffix r hk
  obtain ⟨pd, k, pp, ps⟩ := pfx
  constructor
  · intro decl hfound
    rcases hk with h | h | h <;>
      (simp only [NamedEntity.kind] at h; subst h;
       simp [AnalyzeContext.lookup_selected, hfound])
  · intro hnone
    rcases hk with h | h | h <;>
      (simp only [NamedEntity.kind] at h; subst h;
       simp [AnalyzeContext.lookup_selected, hnone, no_declaration_within,
         NamedEntity.describe])

/-- Witness for C6 at a concrete package entity: member `x` is found,
member `y` produces the "no declaration within" diagnostic. -/
theorem lookup_selected_package_member_witness :
    ctx0.lookup_selected 0 pkgP ⟨⟨"x", none⟩, 5⟩ = .ok (some (.Single entX))
    ∧ ctx0.lookup_selected 0 pkgP ⟨⟨"y", none⟩, 6⟩
        = .error (.NotFatal (Diagnostic.error 6
            ("No declaration of " ++ squote ++ "y" ++ squote
              ++ " within " ++ "package pkg"))) := by
  constructor
  · exact (lookup_selected_package_member ctx0 0 pkgP ⟨⟨"x", none⟩, 5⟩
      [("x", .Single entX)] (Or.inl rfl)).1 (.Single entX) rfl
  · exact (lookup_selected_package_member ctx0 0 pkgP ⟨⟨"y", none⟩, 6⟩
      [("x", .Single entX)] (Or.inl rfl)).2 rfl

/-- C3: when `resolve_prefix` resolves the prefix name to an overloaded
set, it pushes exactly one diagnostic "Overloaded name '<designator>' may
not be the prefix of selected name" anchored at the prefix position and
returns `Ok(None)`: no fatal error and no binding to any overloaded
entity. -/
theorem resolve_pfx_overloaded :
    ∀ (ctx : AnalyzeContext) (region : Region) (ppos : SrcPos) (pfx : Name)
      (ov : OverloadedName) (n' : Name) (ds : List Diagnostic),
    ctx.resolve_name region ppos pfx = (.ok (some (.Overloaded ov)), n', ds) →
    ctx.resolve_pfx region ppos pfx
      = (.ok none, n',
         ds ++ [Diagnostic.error ppos
           ("Overloaded name " ++ squote ++ ov.designator ++ squote
             ++ " may not be the prefix of selected name")]) := by
  intro ctx region ppos pfx ov n' ds h
  simp [AnalyzeContext.resolve_pfx, h]

/-- Witness for C3: a designator resolving to the overloaded set `ovF`
produces exactly the one overloaded-prefix diagnostic and no prefix
entity. -/
theorem resolve_pfx_overloaded_witness :
    ctx0.resolve_pfx regOv 5 (.Designator ⟨"f", none⟩)
      = (.ok none, .Designator ⟨"f", some (.Overloaded ovF)⟩,
         [Diagnostic.error 5
           ("Overloaded name " ++ squote ++ "f" ++ squote
             ++ " may not be the prefix of selected name")]) := by
  exact resolve_pfx_overloaded ctx0 regOv 5 (.Designator ⟨"f", none⟩) ovF
    (.Designator ⟨"f", some (.Overloaded ovF)⟩) []
    (by simp [AnalyzeContext.resolve_name, regOv, WithRef.clear_reference,
      WithRef.designator, WithRef.set_reference])

/-- C10: in `resolve_selected_name`, a prefix resolving to an overloaded
set, or a suffix lookup returning no result, yields the non-fatal error
"Invalid prefix for selected name" anchored at the prefix position. -/
theorem resolve_selected_name_invalid_pfx :
    ∀ (ctx : AnalyzeContext) (region : Region) (pfx : WithPos SelectedName)
      (suffix : WithPos (WithRef Designator)) (pos : SrcPos),
    (∀ (ov : OverloadedName) (pfx' : WithPos SelectedName),
       ctx.resolve_selected_name region pfx = (.ok (.Overloaded ov), pfx') →
       ctx.resolve_selected_name region ⟨.Selected pfx suffix, pos⟩
         = (.error (.NotFatal (Diagnostic.error pfx'.pos
             ("Invalid prefix for selected name"))),
            ⟨.Selected pfx' suffix.clear_reference, pos⟩))
    ∧ (∀ (ent : NamedEntity) (pfx' : WithPos SelectedName),
       ctx.resolve_selected_name region pfx = (.ok (.Single ent), pfx') →
       ctx.lookup_selected pfx'.pos ent suffix.clear_reference = .ok none →
       ctx.resolve_selected_name region ⟨.Selected pfx suffix, pos⟩
         = (.error (.NotFatal (Diagnostic.error pfx'.pos
             ("Invalid prefix for selected name"))),
            ⟨.Selected pfx' suffix.clear_reference, pos⟩)) := by
  intro ctx region pfx suffix pos
  constructor
  · intro ov pfx' h
    simp [AnalyzeContext.resolve_selected_name, h, NamedEntities.into_non_overloaded]
  · intro ent pfx' h hlook
    simp [AnalyzeContext.resolve_selected_name, h, NamedEntities.into_non_overloaded, hlook]

/-- Witness for C10: an overloaded prefix and an `OtherAlias` prefix (whose
suffix lookup yields no result) both produce the invalid-prefix error. -/
theorem resolve_selected_name_invalid_pfx_witness :
    ctx0.resolve_selected_name regOv ⟨.Selected ⟨.Designator ⟨"f", none⟩, 1⟩ ⟨⟨"g", none⟩, 2⟩, 3⟩
      = (.error (.NotFatal (Diagnostic.error 1 ("Invalid prefix for selected name"))),
         ⟨.Selected ⟨.Designator ⟨"f", some (.Overloaded ovF)⟩, 1⟩ ⟨⟨"g", none⟩, 2⟩, 3⟩)
    ∧ ctx0.resolve_selected_name regAl ⟨.Selected ⟨.Designator ⟨"al", none⟩, 1⟩ ⟨⟨"g", none⟩, 2⟩, 3⟩
      = (.error (.NotFatal (Diagnostic.error 1 ("Invalid prefix for selected name"))),
         ⟨.Selected ⟨.Designator ⟨"al", some (.Single entAl)⟩, 1⟩ ⟨⟨"g", none⟩, 2⟩, 3⟩) := by
  constructor
  · exact (resolve_selected_name_invalid_pfx ctx0 regOv ⟨.Designator ⟨"f", none⟩, 1⟩
      ⟨⟨"g", none⟩, 2⟩ 3).1 ovF ⟨.Designator ⟨"f", some (.Overloaded ovF)⟩, 1⟩
      (by simp [AnalyzeContext.resolve_selected_name, regOv, WithRef.clear_reference,
        WithRef.designator, WithPos.set_reference, WithRef.set_reference])
  · exact (resolve_selected_name_invalid_pfx ctx0 regAl ⟨.Designator ⟨"al", none⟩, 1⟩
      ⟨⟨"g", none⟩, 2⟩ 3).2 entAl ⟨.Designator ⟨"al", some (.Single entAl)⟩, 1⟩
      (by simp [AnalyzeContext.resolve_selected_name, regAl, WithRef.clear_reference,
        WithRef.designator, WithPos.set_reference, WithRef.set_reference])
      (by rfl)

/-- Folding `add_related "Defined here"` over an entity list appends one
note per entity that has a declaration position, in order. -/
theorem foldl_add_related (es : List NamedEntity) (d : Diagnostic) :
    es.foldl (fun e ent =>
        match ent.decl_pos with
        | some pos => e.add_related pos "Defined here"
        | none => e) d
      = { d with related := d.related
            ++ es.filterMap (fun ent => ent.decl_pos.map (fun p => (p, "Defined here"))) } := by
  induction es generalizing d with
  | nil => simp
  | cons a es ih =>
    cases h : a.decl_pos with
    | none =>
        rw [List.foldl_cons, ih]
        simp [h]
    | some p =>
        rw [List.foldl_cons, ih]
        simp [h, Diagnostic.add_related, List.append_assoc]

/-- C9: `resolve_non_overloaded` on an overloaded set errors non-fatally
with "Expected <expected>, got overloaded name" at the suffix position,
carrying one "Defined here" note per candidate with a declaration
position; on a single entity of the wrong kind it errors with at most one
such note (one exactly when the entity has a declaration position). -/
theorem resolve_non_overloaded_diagnostics :
    ∀ (ctx : AnalyzeContext) (region : Region) (name : WithPos SelectedName)
      (kind_ok : NamedEntityKind → Bool) (expected : String),
    (∀ (ov : OverloadedName) (name' : WithPos SelectedName),
       ctx.resolve_selected_name region name = (.ok (.Overloaded ov), name') →
       ctx.resolve_non_overloaded region name kind_ok expected
         = (.error (.NotFatal
             { pos := suffix_pos name',
               message := "Expected " ++ expected ++ ", got overloaded name",
               related := ov.entities.filterMap
                 (fun ent => ent.decl_pos.map (fun p => (p, "Defined here"))) }),
            name'))
    ∧ (∀ (ent : NamedEntity) (name' : WithPos SelectedName),
       ctx.resolve_selected_name region name = (.ok (.Single ent), name') →
       kind_ok ent.actual_kind = false →
       ctx.resolve_non_overloaded region name kind_ok expected
         = (.error (.NotFatal
             { pos := suffix_pos name',
               message := "Expected " ++ expected ++ ", got " ++ ent.describe,
               related := (ent.decl_pos.map (fun p => (p, "Defined here"))).toList }),
            name')) := by
  intro ctx region name kind_ok expected
  constructor
  · intro ov name' h
    simp [AnalyzeContext.resolve_non_overloaded, h, NamedEntities.into_non_overloaded,
      foldl_add_related, Diagnostic.error]
  · intro ent name' h hko
    cases hd : ent.decl_pos with
    | none =>
        simp [AnalyzeContext.resolve_non_overloaded, h, NamedEntities.into_non_overloaded,
          hko, hd, Diagnostic.error]
    | some p =>
        simp [AnalyzeContext.resolve_non_overloaded, h, NamedEntities.into_non_overloaded,
          hko, hd, Diagnostic.error, Diagnostic.add_related]

/-- Witness for C9: an overloaded name (one candidate with a declaration
position, one without) gives one "Defined here" note, and a wrong-kind
single alias gives exactly one note. -/
theorem resolve_non_overloaded_diagnostics_witness :
    ctx0.resolve_non_overloaded regOv ⟨.Designator ⟨"f", none⟩, 4⟩
        NamedEntityKind.is_type "type"
      = (.error (.NotFatal
          { pos := 4, message := "Expected " ++ "type" ++ ", got overloaded name",
            related := [(100, "Defined here")] }),
         ⟨.Designator ⟨"f", some (.Overloaded ovF)⟩, 4⟩)
    ∧ ctx0.resolve_non_overloaded regAl ⟨.Designator ⟨"al", none⟩, 4⟩
        NamedEntityKind.is_type "type"
      = (.error (.NotFatal
          { pos := 4, message := "Expected " ++ "type" ++ ", got " ++ "alias al",
            related := [(40, "Defined here")] }),
         ⟨.Designator ⟨"al", some (.Single entAl)⟩, 4⟩) := by
  constructor
  · exact (resolve_non_overloaded_diagnostics ctx0 regOv ⟨.Designator ⟨"f", none⟩, 4⟩
      NamedEntityKind.is_type "type").1 ovF ⟨.Designator ⟨"f", some (.Overloaded ovF)⟩, 4⟩
      (by simp [AnalyzeContext.resolve_selected_name, regOv, WithRef.clear_reference,
        WithRef.designator, WithPos.set_reference, WithRef.set_reference])
  · exact (resolve_non_overloaded_diagnostics ctx0 regAl ⟨.Designator ⟨"al", none⟩, 4⟩
      NamedEntityKind.is_type "type").2 entAl ⟨.Designator ⟨"al", some (.Single entAl)⟩, 4⟩
      (by simp [AnalyzeContext.resolve_selected_name, regAl, WithRef.clear_reference,
        WithRef.designator, WithPos.set_reference, WithRef.set_reference])
      (by rfl)

/-- C1: for a selected name `a.b.c` whose leftmost prefix `a` fails to
resolve — `lookup_within` errors, or the prefix resolves to an overloaded
set so `resolve_prefix` yields no entity — `resolve_name` pushes at most
one diagnostic (the one about `a`), produces none about `b` or `c`, and
returns `Ok(None)` rather than an error. -/
theorem resolve_name_no_cascading_diagnostics :
    ∀ (ctx : AnalyzeContext) (region : Region) (npos pa pab : SrcPos)
      (a : WithRef Designator) (b c : WithPos (WithRef Designator)),
    (∀ d : Diagnostic, region.lookup_within pa a.item = .error d →
       ctx.resolve_name region npos
           (.Selected ⟨.Selected ⟨.Designator a, pa⟩ b, pab⟩ c)
         = (.ok none,
            .Selected ⟨.Selected ⟨.Designator a.clear_reference, pa⟩
                b.clear_reference, pab⟩ c.clear_reference,
            [d]))
    ∧ (∀ ov : OverloadedName, region.lookup_within pa a.item = .ok (.Overloaded ov) →
       ctx.resolve_name region npos
           (.Selected ⟨.Selected ⟨.Designator a, pa⟩ b, pab⟩ c)
         = (.ok none,
            .Selected ⟨.Selected ⟨.Designator (a.clear_reference.set_reference (.Overloaded ov)), pa⟩
                b.clear_reference, pab⟩ c.clear_reference,
            [Diagnostic.error pa
              ("Overloaded name " ++ squote ++ ov.designator ++ squote
                ++ " may not be the prefix of selected name")])) := by
  intro ctx region npos pa pab a b c
  constructor
  · intro d h
    simp [AnalyzeContext.resolve_name, AnalyzeContext.resolve_pfx,
      WithPos.clear_reference, WithRef.clear_reference, WithRef.designator, h]
  · intro ov h
    simp [AnalyzeContext.resolve_name, AnalyzeContext.resolve_pfx,
      WithPos.clear_reference, WithRef.clear_reference, WithRef.designator,
      WithRef.set_reference, h]

/-- Witness for C1: with a scope whose lookups fail with `diagNotFound`,
resolving `a.b.c` pushes exactly that one diagnostic and returns no
entities; with a scope resolving `a` to the overloaded set `ovF`, exactly
the one overloaded-prefix diagnostic is pushed. -/
theorem resolve_name_no_cascading_diagnostics_witness :
    ctx0.resolve_name regErr 9
        (.Selected ⟨.Selected ⟨.Designator ⟨"a", none⟩, 1⟩ ⟨⟨"b", none⟩, 2⟩, 3⟩ ⟨⟨"c", none⟩, 4⟩)
      = (.ok none,
         .Selected ⟨.Selected ⟨.Designator ⟨"a", none⟩, 1⟩ ⟨⟨"b", none⟩, 2⟩, 3⟩ ⟨⟨"c", none⟩, 4⟩,
         [diagNotFound])
    ∧ ctx0.resolve_name regOv 9
        (.Selected ⟨.Selected ⟨.Designator ⟨"a", none⟩, 1⟩ ⟨⟨"b", none⟩, 2⟩, 3⟩ ⟨⟨"c", none⟩, 4⟩)
      = (.ok none,
         .Selected ⟨.Selected ⟨.Designator ⟨"a", some (.Overloaded ovF)⟩, 1⟩ ⟨⟨"b", none⟩, 2⟩, 3⟩
           ⟨⟨"c", none⟩, 4⟩,
         [Diagnostic.error 1
           ("Overloaded name " ++ squote ++ "f" ++ squote
             ++ " may not be the prefix of selected name")]) := by
  constructor
  · exact (resolve_name_no_cascading_diagnostics ctx0 regErr 9 1 3 ⟨"a", none⟩
      ⟨⟨"b", none⟩, 2⟩ ⟨⟨"c", none⟩, 4⟩).1 diagNotFound rfl
  · exact (resolve_name_no_cascading_diagnostics ctx0 regOv 9 1 3 ⟨"a", none⟩
      ⟨⟨"b", none⟩, 2⟩ ⟨⟨"c", none⟩, 4⟩).2 ovF rfl

/-- `WithRef` sibling of `clear_clear`. -/
theorem wclear_clear (d : WithRef T) :
    d.clear_reference.clear_reference = d.clear_reference := rfl

/-- `WithRef` sibling of `clear_set`. -/
theorem wclear_set (d : WithRef T) (v : NamedEntities) :
    (d.set_reference v).clear_reference = d.clear_reference := rfl

/-- `resolve_selected_name` never reads reference slots: its outcome on a
name equals its outcome on the slot-erased name. -/
theorem resolve_selected_name_erase (ctx : AnalyzeContext) (region : Region) :
    ∀ n, ctx.resolve_selected_name region n
      = ctx.resolve_selected_name region (eraseSelRefs n) := by
  refine selnameInd
    (fun n => ctx.resolve_selected_name region n
      = ctx.resolve_selected_name region (eraseSelRefs n)) ?_ ?_
  · intro d pos
    simp [AnalyzeContext.resolve_selected_name, eraseSelRefs,
      WithRef.clear_reference, WithRef.designator]
  · intro pfx suffix pos ih
    simp only [eraseSelRefs, AnalyzeContext.resolve_selected_name]
    rw [← ih]
    simp [clear_clear]

/-- The name node produced by `resolve_selected_name` differs from its
input only in reference slots. -/
theorem resolve_selected_name_erase_output (ctx : AnalyzeContext) (region : Region) :
    ∀ n, eraseSelRefs (ctx.resolve_selected_name region n).2 = eraseSelRefs n := by
  refine selnameInd
    (fun n => eraseSelRefs (ctx.resolve_selected_name region n).2 = eraseSelRefs n) ?_ ?_
  · intro d pos
    simp only [AnalyzeContext.resolve_selected_name, WithRef.clear_reference,
      WithRef.designator]
    cases h : region.lookup_within pos d.item with
    | error diag => simp [h, eraseSelRefs, WithRef.clear_reference]
    | ok visible =>
        simp [h, eraseSelRefs, WithRef.set_reference, WithRef.clear_reference]
  · intro pfx suffix pos ih
    simp only [AnalyzeContext.resolve_selected_name]
    rcases hp : ctx.resolve_selected_name region pfx with ⟨r, pfx'⟩
    rw [hp] at ih
    cases r with
    | error e => simp [eraseSelRefs, ih, clear_clear]
    | ok ents =>
      cases hno : ents.into_non_overloaded with
      | error ov => simp [hno, eraseSelRefs, ih, clear_clear]
      | ok ent =>
        cases hl : ctx.lookup_selected pfx'.pos ent suffix.clear_reference with
        | error err => simp [hno, hl, eraseSelRefs, ih, clear_clear]
        | ok ov =>
          cases ov with
          | none => simp [hno, hl, eraseSelRefs, ih, clear_clear]
          | some visible =>
              simp [hno, hl, eraseSelRefs, ih, clear_clear, clear_set]

/-- `resolve_prefix` returns the name node updated by `resolve_name`
unchanged. -/
theorem resolve_pfx_name_output (ctx : AnalyzeContext) (region : Region)
    (ppos : SrcPos) (pfx : Name) :
    (ctx.resolve_pfx region ppos pfx).2.1 = (ctx.resolve_name region ppos pfx).2.1 := by
  rcases h : ctx.resolve_name region ppos pfx with ⟨r, p', ds⟩
  cases r with
  | error e => simp [AnalyzeContext.resolve_pfx, h]
  | ok o =>
    cases o with
    | none => simp [AnalyzeContext.resolve_pfx, h]
    | some ents => cases ents <;> simp [AnalyzeContext.resolve_pfx, h]

/-- On the designator / selected / selected-all fragment, `resolve_name`
never reads reference slots: its outcome on a name equals its outcome on
the slot-cleared name. -/
theorem resolve_name_clear_fragment (ctx : AnalyzeContext) (region : Region)
    {n : Name} (hn : SelectedNameForm n) :
    ∀ npos, ctx.resolve_name region npos n
      = ctx.resolve_name region npos (clearNameRefs n) := by
  induction hn with
  | designator d =>
    intro npos
    simp [AnalyzeContext.resolve_name, clearNameRefs,
      WithRef.clear_reference, WithRef.designator]
  | selected pitem ppos suffix hp ih =>
    intro npos
    have hpfx : ctx.resolve_pfx region ppos pitem
        = ctx.resolve_pfx region ppos (clearNameRefs pitem) := by
      simp only [AnalyzeContext.resolve_pfx]
      rw [← ih ppos]
    simp only [clearNameRefs, AnalyzeContext.resolve_name]
    rw [← hpfx]
    simp [clear_clear]
  | selectedAll pitem ppos hp ih =>
    intro npos
    have hpfx : ctx.resolve_pfx region ppos pitem
        = ctx.resolve_pfx region ppos (clearNameRefs pitem) := by
      simp only [AnalyzeContext.resolve_pfx]
      rw [← ih ppos]
    simp only [clearNameRefs, AnalyzeContext.resolve_name]
    rw [← hpfx]

/-- On the fragment, the name node produced by `resolve_name` differs from
its input only in reference slots. -/
theorem resolve_name_clear_output_fragment (ctx : AnalyzeContext) (region : Region)
    {n : Name} (hn : SelectedNameForm n) :
    ∀ npos, clearNameRefs (ctx.resolve_name region npos n).2.1 = clearNameRefs n := by
  induction hn with
  | designator d =>
    intro npos
    simp only [AnalyzeContext.resolve_name, WithRef.clear_reference, WithRef.designator]
    cases h : region.lookup_within npos d.item with
    | error diag => simp [h, clearNameRefs, WithRef.clear_reference]
    | ok visible =>
        simp [h, clearNameRefs, WithRef.set_reference, WithRef.clear_reference]
  | selected pitem ppos suffix hp ih =>
    intro npos
    have hout : clearNameRefs (ctx.resolve_pfx region ppos pitem).2.1
        = clearNameRefs pitem := by
      rw [resolve_pfx_name_output]; exact ih ppos
    simp only [AnalyzeContext.resolve_name]
    rcases hres : ctx.resolve_pfx region ppos pitem with ⟨r0, p0, ds0⟩
    rw [hres] at hout
    cases r0 with
    | error e => simp [clearNameRefs, hout, clear_clear]
    | ok oent =>
      cases oent with
      | none => simp [clearNameRefs, hout, clear_clear]
      | some ne =>
        cases hl : ctx.lookup_selected ppos ne suffix.clear_reference with
        | error err =>
          rcases h2 : err.add_to with ⟨r2, ds2⟩
          cases r2 <;> simp [hl, h2, clearNameRefs, hout, clear_clear]
        | ok ov =>
          cases ov with
          | none => simp [hl, clearNameRefs, hout, clear_clear]
          | some visible => simp [hl, clearNameRefs, hout, clear_clear, clear_set]
  | selectedAll pitem ppos hp ih =>
    intro npos
    have hout : clearNameRefs (ctx.resolve_pfx region ppos pitem).2.1
        = clearNameRefs pitem := by
      rw [resolve_pfx_name_output]; exact ih ppos
    simp only [AnalyzeContext.resolve_name]
    rcases hres : ctx.resolve_pfx region ppos pitem with ⟨r0, p0, ds0⟩
    rw [hres] at hout
    cases r0 <;> simp [clearNameRefs, hout]

/-- The fragment is closed under resolution: the updated node is again a
designator / selected / selected-all name. -/
theorem resolve_name_fragment_closed (ctx : AnalyzeContext) (region : Region)
    {n : Name} (hn : SelectedNameForm n) :
    ∀ npos, SelectedNameForm (ctx.resolve_name region npos n).2.1 := by
  induction hn with
  | designator d =>
    intro npos
    simp only [AnalyzeContext.resolve_name, WithRef.clear_reference, WithRef.designator]
    cases h : region.lookup_within npos d.item with
    | error diag => simp [h]; exact .designator _
    | ok visible => simp [h]; exact .designator _
  | selected pitem ppos suffix hp ih =>
    intro npos
    have hfrag : SelectedNameForm (ctx.resolve_pfx region ppos pitem).2.1 := by
      rw [resolve_pfx_name_output]; exact ih ppos
    simp only [AnalyzeContext.resolve_name]
    rcases hres : ctx.resolve_pfx region ppos pitem with ⟨r0, p0, ds0⟩
    rw [hres] at hfrag
    cases r0 with
    | error e => exact .selected _ _ _ hfrag
    | ok oent =>
      cases oent with
      | none => exact .selected _ _ _ hfrag
      | some ne =>
        cases hl : ctx.lookup_selected ppos ne suffix.clear_reference with
        | error err =>
          rcases h2 : err.add_to with ⟨r2, ds2⟩
          cases r2 <;> simp [hl, h2] <;> exact .selected _ _ _ hfrag
        | ok ov =>
          cases ov with
          | none => simp [hl]; exact .selected _ _ _ hfrag
          | some visible => simp [hl]; exact .selected _ _ _ hfrag
  | selectedAll pitem ppos hp ih =>
    intro npos
    have hfrag : SelectedNameForm (ctx.resolve_pfx region ppos pitem).2.1 := by
      rw [resolve_pfx_name_output]; exact ih ppos
    simp only [AnalyzeContext.resolve_name]
    rcases hres : ctx.resolve_pfx region ppos pitem with ⟨r0, p0, ds0⟩
    rw [hres] at hfrag
    cases r0 <;> exact .selectedAll _ _ hfrag

/-- C5: reference slots are cleared before any write (the suffix slot even
before prefix resolution), so resolution never depends on previously
stored bindings: `resolve_selected_name` and (on its slot-writing
designator / selected / selected-all cases) `resolve_name` give identical
outcomes on names differing only in slot contents, resolving the same node
twice yields the same slot state both times, and the suffix slot of a
resolved selected name is exactly the fresh result — `none` whenever the
attempt failed, never a stale binding. -/
theorem reference_slots_never_stale :
    (∀ (ctx : AnalyzeContext) (region : Region) (n n' : WithPos SelectedName),
       eraseSelRefs n = eraseSelRefs n' →
       ctx.resolve_selected_name region n = ctx.resolve_selected_name region n')
    ∧ (∀ (ctx : AnalyzeContext) (region : Region) (n : WithPos SelectedName),
       ctx.resolve_selected_name region (ctx.resolve_selected_name region n).2
         = ctx.resolve_selected_name region n)
    ∧ (∀ (ctx : AnalyzeContext) (region : Region) (npos : SrcPos) (n n' : Name),
       SelectedNameForm n → SelectedNameForm n' →
       clearNameRefs n = clearNameRefs n' →
       ctx.resolve_name region npos n = ctx.resolve_name region npos n')
    ∧ (∀ (ctx : AnalyzeContext) (region : Region) (npos : SrcPos) (n : Name),
       SelectedNameForm n →
       ctx.resolve_name region npos (ctx.resolve_name region npos n).2.1
         = ctx.resolve_name region npos n)
    ∧ (∀ (ctx : AnalyzeContext) (region : Region) (npos : SrcPos)
         (p : WithPos Name) (suffix : WithPos (WithRef Designator)),
       ∃ p' : Name,
         (ctx.resolve_name region npos (.Selected p suffix)).2.1
           = .Selected ⟨p', p.pos⟩
               (match (ctx.resolve_name region npos (.Selected p suffix)).1 with
                | .ok (some v) => suffix.clear_reference.set_reference v
                | _ => suffix.clear_reference)) := by
  refine ⟨?_, ?_, ?_, ?_, ?_⟩
  · intro ctx region n n' h
    rw [resolve_selected_name_erase ctx region n, h,
      ← resolve_selected_name_erase ctx region n']
  · intro ctx region n
    rw [resolve_selected_name_erase ctx region (ctx.resolve_selected_name region n).2,
      resolve_selected_name_erase_output,
      ← resolve_selected_name_erase ctx region n]
  · intro ctx region npos n n' hn hn' h
    rw [resolve_name_clear_fragment ctx region hn npos, h,
      ← resolve_name_clear_fragment ctx region hn' npos]
  · intro ctx region npos n hn
    rw [resolve_name_clear_fragment ctx region
        (resolve_name_fragment_closed ctx region hn npos) npos,
      resolve_name_clear_output_fragment ctx region hn npos,
      ← resolve_name_clear_fragment ctx region hn npos]
  · intro ctx region npos p suffix
    obtain ⟨pitem, ppos⟩ := p
    simp only [AnalyzeContext.resolve_name]
    rcases h0 : ctx.resolve_pfx region ppos pitem with ⟨r0, p0, ds0⟩
    refine ⟨p0, ?_⟩
    cases r0 with
    | error e => simp
    | ok oent =>
      cases oent with
      | none => simp
      | some ne =>
        cases hl : ctx.lookup_selected ppos ne suffix.clear_reference with
        | error err =>
          rcases h2 : err.add_to with ⟨r2, ds2⟩
          cases r2 <;> simp [hl, h2]
        | ok ov =>
          cases ov with
          | none => simp [hl]
          | some visible => simp [hl]

/-- Witness for C5: a stale slot (a previously stored overloaded binding)
does not change the outcome, and re-resolving a freshly resolved
designator reproduces the identical slot state. -/
theorem reference_slots_never_stale_witness :
    ctx0.resolve_selected_name regAl ⟨.Designator ⟨"a", some (.Overloaded ovF)⟩, 2⟩
      = ctx0.resolve_selected_name regAl ⟨.Designator ⟨"a", none⟩, 2⟩
    ∧ ctx0.resolve_name regAl 2
        (ctx0.resolve_name regAl 2 (.Designator ⟨"a", some (.Overloaded ovF)⟩)).2.1
      = ctx0.resolve_name regAl 2 (.Designator ⟨"a", some (.Overloaded ovF)⟩) := by
  exact ⟨reference_slots_never_stale.1 ctx0 regAl
      ⟨.Designator ⟨"a", some (.Overloaded ovF)⟩, 2⟩ ⟨.Designator ⟨"a", none⟩, 2⟩
      (by simp [eraseSelRefs, WithRef.clear_reference]),
    reference_slots_never_stale.2.2.2.1 ctx0 regAl 2
      (.Designator ⟨"a", some (.Overloaded ovF)⟩) (.designator _)⟩

/-- When the conditional-pair loop of `analyze_expr_assignment` succeeds,
its diagnostics stream is, pair by pair, the value's diagnostics followed
by the condition's. -/
theorem analyze_expr_conditionals_ok_diags (ctx : AnalyzeContext) (region : Region) :
    ∀ (l : List (Conditional (WithPos Expression))) (u : Unit)
      (l' : List (Conditional (WithPos Expression))) (ds : List Diagnostic),
    ctx.analyze_expr_conditionals region l = (.ok u, l', ds) →
    ds = spec_conditionals_diag_order ctx region l := by
  intro l
  induction l with
  | nil =>
    intro u l' ds h
    simp only [AnalyzeContext.analyze_expr_conditionals, Prod.mk.injEq] at h
    simp [spec_conditionals_diag_order, ← h.2.2]
  | cons c rest ih =>
    intro u l' ds h
    obtain ⟨condition, item⟩ := c
    simp only [AnalyzeContext.analyze_expr_conditionals] at h
    rcases h1 : ctx.analyze_expression region item with ⟨r1, i', ds1⟩
    rw [h1] at h
    cases r1 with
    | error e => simp at h
    | ok u1 =>
      rcases h2 : ctx.analyze_expression region condition with ⟨r2, c', ds2⟩
      rw [h2] at h
      cases r2 with
      | error e => simp at h
      | ok u2 =>
        rcases h3 : ctx.analyze_expr_conditionals region rest with ⟨r3, rest', ds3⟩
        rw [h3] at h
        simp only [Prod.mk.injEq] at h
        obtain ⟨hr, _hl, hds⟩ := h
        subst hr
        have := ih u rest' ds3 h3
        simp [spec_conditionals_diag_order, ← hds, h1, h2, this]

/-- When the alternatives loop of `analyze_expr_assignment` succeeds, its
diagnostics stream is, alternative by alternative, the value's diagnostics
followed by the choices'. -/
theorem analyze_expr_alternatives_ok_diags (ctx : AnalyzeContext) (region : Region) :
    ∀ (l : List (Alternative (WithPos Expression))) (u : Unit)
      (l' : List (Alternative (WithPos Expression))) (ds : List Diagnostic),
    ctx.analyze_expr_alternatives region l = (.ok u, l', ds) →
    ds = spec_alternatives_diag_order ctx region l := by
  intro l
  induction l with
  | nil =>
    intro u l' ds h
    simp only [AnalyzeContext.analyze_expr_alternatives, Prod.mk.injEq] at h
    simp [spec_alternatives_diag_order, ← h.2.2]
  | cons a rest ih =>
    intro u l' ds h
    obtain ⟨choices, item⟩ := a
    simp only [AnalyzeContext.analyze_expr_alternatives] at h
    rcases h1 : ctx.analyze_expression region item with ⟨r1, i', ds1⟩
    rw [h1] at h
    cases r1 with
    | error e => simp at h
    | ok u1 =>
      rcases h2 : ctx.analyze_choices region choices with ⟨r2, cs', ds2⟩
      rw [h2] at h
      cases r2 with
      | error e => simp at h
      | ok u2 =>
        rcases h3 : ctx.analyze_expr_alternatives region rest with ⟨r3, rest', ds3⟩
        rw [h3] at h
        simp only [Prod.mk.injEq] at h
        obtain ⟨hr, _hl, hds⟩ := h
        subst hr
        have := ih u rest' ds3 h3
        simp [spec_alternatives_diag_order, ← hds, h1, h2, this]

/-- Waveform sibling of `analyze_expr_conditionals_ok_diags`. -/
theorem analyze_waveform_conditionals_ok_diags (ctx : AnalyzeContext) (region : Region) :
    ∀ (l : List (Conditional Waveform)) (u : Unit)
      (l' : List (Conditional Waveform)) (ds : List Diagnostic),
    ctx.analyze_waveform_conditionals region l = (.ok u, l', ds) →
    ds = spec_wconditionals_diag_order ctx region l := by
  intro l
  induction l with
  | nil =>
    intro u l' ds h
    simp only [AnalyzeContext.analyze_waveform_conditionals, Prod.mk.injEq] at h
    simp [spec_wconditionals_diag_order, ← h.2.2]
  | cons c rest ih =>
    intro u l' ds h
    obtain ⟨condition, item⟩ := c
    simp only [AnalyzeContext.analyze_waveform_conditionals] at h
    rcases h1 : ctx.analyze_waveform region item with ⟨r1, i', ds1⟩
    rw [h1] at h
    cases r1 with
    | error e => simp at h
    | ok u1 =>
      rcases h2 : ctx.analyze_expression region condition with ⟨r2, c', ds2⟩
      rw [h2] at h
      cases r2 with
      | error e => simp at h
      | ok u2 =>
        rcases h3 : ctx.analyze_waveform_conditionals region rest with ⟨r3, rest', ds3⟩
        rw [h3] at h
        simp only [Prod.mk.injEq] at h
        obtain ⟨hr, _hl, hds⟩ := h
        subst hr
        have := ih u rest' ds3 h3
        simp [spec_wconditionals_diag_order, ← hds, h1, h2, this]

/-- Waveform sibling of `analyze_expr_alternatives_ok_diags`. -/
theorem analyze_waveform_alternatives_ok_diags (ctx : AnalyzeContext) (region : Region) :
    ∀ (l : List (Alternative Waveform)) (u : Unit)
      (l' : List (Alternative Waveform)) (ds : List Diagnostic),
    ctx.analyze_waveform_alternatives region l = (.ok u, l', ds) →
    ds = spec_walternatives_diag_order ctx region l := by
  intro l
  induction l with
  | nil =>
    intro u l' ds h
    simp only [AnalyzeContext.analyze_waveform_alternatives, Prod.mk.injEq] at h
    simp [spec_walternatives_diag_order, ← h.2.2]
  | cons a rest ih =>
    intro u l' ds h
    obtain ⟨choices, item⟩ := a
    simp only [AnalyzeContext.analyze_waveform_alternatives] at h
    rcases h1 : ctx.analyze_waveform region item with ⟨r1, i', ds1⟩
    rw [h1] at h
    cases r1 with
    | error e => simp at h
    | ok u1 =>
      rcases h2 : ctx.analyze_choices region choices with ⟨r2, cs', ds2⟩
      rw [h2] at h
      cases r2 with
      | error e => simp at h
      | ok u2 =>
        rcases h3 : ctx.analyze_waveform_alternatives region rest with ⟨r3, rest', ds3⟩
        rw [h3] at h
        simp only [Prod.mk.injEq] at h
        obtain ⟨hr, _hl, hds⟩ := h
        subst hr
        have := ih u rest' ds3 h3
        simp [spec_walternatives_diag_order, ← hds, h1, h2, this]

/-- C8: in `analyze_expr_assignment` and `analyze_waveform_assignment`, a
conditional right-hand side analyzes the target first, then within each
condition/value pair the value before the condition, then the optional
else-value last; a selected right-hand side analyzes the selector
expression first, then the target, then for each alternative the value
before its choices — witnessed by the order of the diagnostics stream and
the threading of the updated nodes. -/
theorem assignment_analysis_order :
    (∀ (ctx : AnalyzeContext) (region : Region)
       (l l' : List (Conditional (WithPos Expression))) (u : Unit) (ds : List Diagnostic),
       ctx.analyze_expr_conditionals region l = (.ok u, l', ds) →
       ds = spec_conditionals_diag_order ctx region l)
    ∧ (∀ (ctx : AnalyzeContext) (region : Region)
         (l l' : List (Alternative (WithPos Expression))) (u : Unit) (ds : List Diagnostic),
       ctx.analyze_expr_alternatives region l = (.ok u, l', ds) →
       ds = spec_alternatives_diag_order ctx region l)
    ∧ (∀ (ctx : AnalyzeContext) (region : Region)
         (l l' : List (Conditional Waveform)) (u : Unit) (ds : List Diagnostic),
       ctx.analyze_waveform_conditionals region l = (.ok u, l', ds) →
       ds = spec_wconditionals_diag_order ctx region l)
    ∧ (∀ (ctx : AnalyzeContext) (region : Region)
         (l l' : List (Alternative Waveform)) (u : Unit) (ds : List Diagnostic),
       ctx.analyze_waveform_alternatives region l = (.ok u, l', ds) →
       ds = spec_walternatives_diag_order ctx region l)
    ∧ (∀ (ctx : AnalyzeContext) (region : Region) (target t' : WithPos Target)
         (at0 : AssignmentType) (conds cs' : List (Conditional (WithPos Expression)))
         (dst dsc : List Diagnostic),
       ctx.analyze_target region target at0 = (.ok (), t', dst) →
       ctx.analyze_expr_conditionals region conds = (.ok (), cs', dsc) →
       ctx.analyze_expr_assignment region target at0 (.Conditional ⟨conds, none⟩)
         = (.ok (), t', .Conditional ⟨cs', none⟩, dst ++ dsc))
    ∧ (∀ (ctx : AnalyzeContext) (region : Region) (target t' : WithPos Target)
         (at0 : AssignmentType) (conds cs' : List (Conditional (WithPos Expression)))
         (dst dsc dse : List Diagnostic) (e e' : WithPos Expression)
         (re : FatalResult Unit),
       ctx.analyze_target region target at0 = (.ok (), t', dst) →
       ctx.analyze_expr_conditionals region conds = (.ok (), cs', dsc) →
       ctx.analyze_expression region e = (re, e', dse) →
       ctx.analyze_expr_assignment region target at0 (.Conditional ⟨conds, some e⟩)
         = (re, t', .Conditional ⟨cs', some e'⟩, dst ++ dsc ++ dse))
    ∧ (∀ (ctx : AnalyzeContext) (region : Region) (target t' : WithPos Target)
         (at0 : AssignmentType) (sexpr ex' : WithPos Expression)
         (alts alts' : List (Alternative (WithPos Expression)))
         (dsx dst dsa : List Diagnostic) (ra : FatalResult Unit),
       ctx.analyze_expression region sexpr = (.ok (), ex', dsx) →
       ctx.analyze_target region target at0 = (.ok (), t', dst) →
       ctx.analyze_expr_alternatives region alts = (ra, alts', dsa) →
       ctx.analyze_expr_assignment region target at0 (.Selected ⟨sexpr, alts⟩)
         = (ra, t', .Selected ⟨ex', alts'⟩, dsx ++ dst ++ dsa))
    ∧ (∀ (ctx : AnalyzeContext) (region : Region) (target t' : WithPos Target)
         (at0 : AssignmentType) (conds cs' : List (Conditional Waveform))
         (dst dsc : List Diagnostic),
       ctx.analyze_target region target at0 = (.ok (), t', dst) →
       ctx.analyze_waveform_conditionals region conds = (.ok (), cs', dsc) →
       ctx.analyze_waveform_assignment region target at0 (.Conditional ⟨conds, none⟩)
         = (.ok (), t', .Conditional ⟨cs', none⟩, dst ++ dsc))
    ∧ (∀ (ctx : AnalyzeContext) (region : Region) (target t' : WithPos Target)
         (at0 : AssignmentType) (conds cs' : List (Conditional Waveform))
         (dst dsc dse : List Diagnostic) (w w' : Waveform) (re : FatalResult Unit),
       ctx.analyze_target region target at0 = (.ok (), t', dst) →
       ctx.analyze_waveform_conditionals region conds = (.ok (), cs', dsc) →
       ctx.analyze_waveform region w = (re, w', dse) →
       ctx.analyze_waveform_assignment region target at0 (.Conditional ⟨conds, some w⟩)
         = (re, t', .Conditional ⟨cs', some w'⟩, dst ++ dsc ++ dse))
    ∧ (∀ (ctx : AnalyzeContext) (region : Region) (target t' : WithPos Target)
         (at0 : AssignmentType) (sexpr ex' : WithPos Expression)
         (alts alts' : List (Alternative Waveform))
         (dsx dst dsa : List Diagnostic) (ra : FatalResult Unit),
       ctx.analyze_expression region sexpr = (.ok (), ex', dsx) →
       ctx.analyze_target region target at0 = (.ok (), t', dst) →
       ctx.analyze_waveform_alternatives region alts = (ra, alts', dsa) →
       ctx.analyze_waveform_assignment region target at0 (.Selected ⟨sexpr, alts⟩)
         = (ra, t', .Selected ⟨ex', alts'⟩, dsx ++ dst ++ dsa)) := by
  refine ⟨?_, ?_, ?_, ?_, ?_, ?_, ?_, ?_, ?_, ?_⟩
  · intro ctx region l l' u ds h
    exact analyze_expr_conditionals_ok_diags ctx region l u l' ds h
  · intro ctx region l l' u ds h
    exact analyze_expr_alternatives_ok_diags ctx region l u l' ds h
  · intro ctx region l l' u ds h
    exact analyze_waveform_conditionals_ok_diags ctx region l u l' ds h
  · intro ctx region l l' u ds h
    exact analyze_waveform_alternatives_ok_diags ctx region l u l' ds h
  · intro ctx region target t' at0 conds cs' dst dsc hT hC
    simp [AnalyzeContext.analyze_expr_assignment, hT, hC]
  · intro ctx region target t' at0 conds cs' dst dsc dse e e' re hT hC hE
    simp [AnalyzeContext.analyze_expr_assignment, hT, hC, hE]
  · intro ctx region target t' at0 sexpr ex' alts alts' dsx dst dsa ra hX hT hA
    simp [AnalyzeContext.analyze_expr_assignment, hX, hT, hA, List.append_assoc]
  · intro ctx region target t' at0 conds cs' dst dsc hT hC
    simp [AnalyzeContext.analyze_waveform_assignment, hT, hC]
  · intro ctx region target t' at0 conds cs' dst dsc dse w w' re hT hC hE
    simp [AnalyzeContext.analyze_waveform_assignment, hT, hC, hE]
  · intro ctx region target t' at0 sexpr ex' alts alts' dsx dst dsa ra hX hT hA
    simp [AnalyzeContext.analyze_waveform_assignment, hX, hT, hA, List.append_assoc]

/-- Witness for C8: a one-pair conditional expression assignment and a
one-alternative selected waveform assignment at concrete literal inputs. -/
theorem assignment_analysis_order_witness :
    ctx0.analyze_expr_assignment regErr ⟨7, 8⟩ .Signal
        (.Conditional ⟨[⟨⟨.Literal "c", 1⟩, ⟨.Literal "v", 2⟩⟩], none⟩)
      = (.ok (), ⟨7, 8⟩,
         .Conditional ⟨[⟨⟨.Literal "c", 1⟩, ⟨.Literal "v", 2⟩⟩], none⟩, [])
    ∧ ctx0.analyze_waveform_assignment regErr ⟨7, 8⟩ .Signal
        (.Selected ⟨⟨.Literal "s", 5⟩, [⟨[Choice.Others], Waveform.Unaffected⟩]⟩)
      = (.ok (), ⟨7, 8⟩,
         .Selected ⟨⟨.Literal "s", 5⟩, [⟨[Choice.Others], Waveform.Unaffected⟩]⟩, []) := by
  constructor
  · exact assignment_analysis_order.2.2.2.2.1 ctx0 regErr ⟨7, 8⟩ ⟨7, 8⟩ .Signal
      [⟨⟨.Literal "c", 1⟩, ⟨.Literal "v", 2⟩⟩] [⟨⟨.Literal "c", 1⟩, ⟨.Literal "v", 2⟩⟩] [] []
      rfl
      (by simp [AnalyzeContext.analyze_expr_conditionals, AnalyzeContext.analyze_expression,
        AnalyzeContext.analyze_expression_pos])
  · exact assignment_analysis_order.2.2.2.2.2.2.2.2.2 ctx0 regErr ⟨7, 8⟩ ⟨7, 8⟩ .Signal
      ⟨.Literal "s", 5⟩ ⟨.Literal "s", 5⟩
      [⟨[Choice.Others], Waveform.Unaffected⟩] [⟨[Choice.Others], Waveform.Unaffected⟩]
      [] [] [] (.ok ())
      (by simp [AnalyzeContext.analyze_expression, AnalyzeContext.analyze_expression_pos])
      rfl
      (by simp [AnalyzeContext.analyze_waveform_alternatives, AnalyzeContext.analyze_waveform,
        AnalyzeContext.analyze_choices])

end Vhdl
